import Mathlib

/-!
Verification development for the graphgate federated GraphQL gateway:
a shallow embedding of the schema composer (`crates/schema/src/composed_schema.rs`),
of the single-field-subscriptions validation rule
(`crates/validation/src/rules/single_field_subscriptions.rs`) and of the query
planner (`crates/planner/src/builder/*`), together with theorems about the
behaviour of these functions.

Modelling conventions:
* Rust `IndexMap`/`IndexSet` (insertion ordered) are modelled as association
  lists `List (String × α)` / `List String`; `HashMap` is modelled the same
  way (iteration order of a Rust `HashMap` is arbitrary; the embedding fixes
  insertion order, a deviation that is noted where it could matter).
* Machine integers only appear as loop counters and prefixes; they are
  modelled as `Nat` (no overflow is reachable at the sizes involved).
* Rust `&str`/`String` is `String`; `Option` is `Option`; fallible code
  returns `Except CombineError`.
* Functions that recurse through named fragments or through the fetch-entity
  work queue are not structurally recursive in the source (the source can
  even diverge on cyclic fragment definitions); they take an explicit fuel
  argument and return their accumulator unchanged when the fuel is exhausted.
-/

/-! ## Generic association-list helpers (model of `IndexMap` operations) -/

/-- `IndexMap::get`: first value stored under a key. -/
def assocGet {α : Type} (l : List (String × α)) (k : String) : Option α :=
  match l with
  | [] => none
  | (k2, v) :: t => if k2 = k then some v else assocGet t k

/-- `IndexMap::contains_key`. -/
def assocHas {α : Type} (l : List (String × α)) (k : String) : Bool :=
  (assocGet l k).isSome

/-- `IndexMap::insert`: replace the value in place if the key is present
(keeping its original position), otherwise append at the end. -/
def assocPut {α : Type} (l : List (String × α)) (k : String) (v : α) : List (String × α) :=
  match l with
  | [] => [(k, v)]
  | (k2, w) :: t => if k2 = k then (k2, v) :: t else (k2, w) :: assocPut t k v

/-- `IndexMap::entry(k).or_insert(d)` followed by an update of the entry. -/
def assocUpdate {α : Type} (l : List (String × α)) (k : String) (d : α) (f : α → α) :
    List (String × α) :=
  match l with
  | [] => [(k, f d)]
  | (k2, w) :: t => if k2 = k then (k2, f w) :: t else (k2, w) :: assocUpdate t k d f

/-- Keys of an association list, in iteration order. -/
def assocKeys {α : Type} (l : List (String × α)) : List String :=
  l.map Prod.fst

/-- `Vec::contains` on strings. -/
def strListHas (l : List String) (s : String) : Bool :=
  l.any (fun x => x = s)

/-- Lexicographic comparison of character lists by code point, the order of
Rust `str::cmp` (written out explicitly so that it evaluates inside the
kernel). -/
def charListLe : List Char → List Char → Bool
  | [], _ => true
  | _ :: _, [] => false
  | a :: as, b :: bs =>
    if a.toNat < b.toNat then true
    else if b.toNat < a.toNat then false
    else charListLe as bs

/-- String comparison, the order used by Rust `str::cmp`. -/
def strLe (a b : String) : Bool := charListLe a.data b.data

/-! ## Source AST

The GraphQL parser is an external collaborator of the repository (spec §1);
the embedding works on its output, modelled by the following types.  Nested
containers are encoded as mutual inductives so that all functions over them
are structurally recursive (and hence reduce inside the kernel). -/

/- `parser::types::Type`: a GraphQL type reference.  `Ty.mk base nullable`
mirrors the `Type { base, nullable }` struct; `BaseTy` mirrors `BaseType`. -/
mutual
inductive BaseTy : Type where
  | named : String → BaseTy
  | listTy : Ty → BaseTy
inductive Ty : Type where
  | mk : BaseTy → Bool → Ty
end

def Ty.base : Ty → BaseTy
  | .mk b _ => b

def Ty.nullable : Ty → Bool
  | .mk _ n => n

/-- Structural equality of type references (Rust `PartialEq` on `Type`). -/
def Ty.beq : Ty → Ty → Bool
  | .mk b1 n1, .mk b2 n2 => n1 == n2 && baseBeq b1 b2
where baseBeq : BaseTy → BaseTy → Bool
  | .named s, .named t => s == t
  | .listTy t1, .listTy t2 => Ty.beq t1 t2
  | _, _ => false

/- `value::ConstValue` restricted to the variants the composer inspects
(null, booleans, numbers, strings, lists, objects). -/
mutual
inductive ConstValue : Type where
  | nullV : ConstValue
  | boolV : Bool → ConstValue
  | numV : Int → ConstValue
  | strV : String → ConstValue
  | listV : CVList → ConstValue
  | objV : CVObj → ConstValue
inductive CVList : Type where
  | nil : CVList
  | cons : ConstValue → CVList → CVList
inductive CVObj : Type where
  | nil : CVObj
  | cons : String → ConstValue → CVObj → CVObj
end

/-- `ConstValue::Object::get`. -/
def CVObj.get : CVObj → String → Option ConstValue
  | .nil, _ => none
  | .cons k v t, k2 => if k = k2 then some v else CVObj.get t k2

mutual
def ConstValue.beq : ConstValue → ConstValue → Bool
  | .nullV, .nullV => true
  | .boolV a, .boolV b => a == b
  | .numV a, .numV b => a == b
  | .strV a, .strV b => a == b
  | .listV a, .listV b => CVList.beq a b
  | .objV a, .objV b => CVObj.beq a b
  | _, _ => false
def CVList.beq : CVList → CVList → Bool
  | .nil, .nil => true
  | .cons a t, .cons b t2 => ConstValue.beq a b && CVList.beq t t2
  | _, _ => false
def CVObj.beq : CVObj → CVObj → Bool
  | .nil, .nil => true
  | .cons k a t, .cons k2 b t2 => k == k2 && ConstValue.beq a b && CVObj.beq t t2
  | _, _ => false
end

/-- `parser::types::ConstDirective`: a directive applied in SDL, with its
named arguments. -/
structure ConstDirective : Type where
  name : String
  arguments : List (String × ConstValue)

/-- `parser::types::InputValueDefinition` (argument and input-field
declarations). -/
structure InputValueDefinition : Type where
  description : Option String
  name : String
  ty : Ty
  defaultValue : Option ConstValue

/-- `parser::types::FieldDefinition`. -/
structure FieldDefinition : Type where
  description : Option String
  name : String
  arguments : List InputValueDefinition
  ty : Ty
  directives : List ConstDirective

/-- `parser::types::EnumValueDefinition`. -/
structure EnumValueDefinition : Type where
  description : Option String
  value : String
  directives : List ConstDirective

/-- `parser::types::TypeKind`: the payload of a type definition. -/
inductive TypeDefKind : Type where
  | scalar : TypeDefKind
  | object (implements : List String) (fields : List FieldDefinition) : TypeDefKind
  | interface (implements : List String) (fields : List FieldDefinition) : TypeDefKind
  | union (members : List String) : TypeDefKind
  | enum (values : List EnumValueDefinition) : TypeDefKind
  | inputObject (fields : List InputValueDefinition) : TypeDefKind

/-- `parser::types::TypeDefinition`. -/
structure TypeDefinition : Type where
  extend : Bool
  description : Option String
  name : String
  directives : List ConstDirective
  kind : TypeDefKind

/-- `parser::types::SchemaDefinition` (the `schema { ... }` block). -/
structure SchemaDefinition : Type where
  query : Option String
  mutation : Option String
  subscription : Option String
  directives : List ConstDirective

/-- `parser::types::TypeSystemDefinition`.  The payload of directive
definitions is irrelevant to `combine` (which ignores them), so only the
name is kept. -/
inductive TypeSystemDefinition : Type where
  | schemaDef : SchemaDefinition → TypeSystemDefinition
  | typeDef : TypeDefinition → TypeSystemDefinition
  | directiveDef : String → TypeSystemDefinition

/-- `parser::types::ServiceDocument`. -/
structure ServiceDocument : Type where
  definitions : List TypeSystemDefinition

/-! ## Composed schema model (`crates/schema/src/composed_schema.rs`) -/

/- `KeyFields(IndexMap<Name, KeyFields>)`: the parsed shape of a
`@key`/`@requires`/`@provides` field set.  The nested map is encoded as the
mutual inductive `KFList`. -/
mutual
inductive KeyFields : Type where
  | mk : KFList → KeyFields
inductive KFList : Type where
  | nil : KFList
  | cons : String → KeyFields → KFList → KFList
end

def KFList.get : KFList → String → Option KeyFields
  | .nil, _ => none
  | .cons k v t, k2 => if k = k2 then some v else KFList.get t k2

def KFList.keys : KFList → List String
  | .nil => []
  | .cons k _ t => k :: t.keys

def KFList.isEmpty : KFList → Bool
  | .nil => true
  | .cons _ _ _ => false

/-- `IndexMap::insert` semantics for building a `KFList` (replace in place,
else append); used to mirror collecting parsed selections into the map. -/
def KFList.put : KFList → String → KeyFields → KFList
  | .nil, k, v => .cons k v .nil
  | .cons k2 w t, k, v => if k2 = k then .cons k2 v t else .cons k2 w (t.put k v)

def KeyFields.fields : KeyFields → KFList
  | .mk l => l

/-- Top-level field names of a key field set (`key.0.keys()`). -/
def KeyFields.topNames (k : KeyFields) : List String :=
  k.fields.keys

def KeyFields.get (k : KeyFields) (n : String) : Option KeyFields :=
  k.fields.get n

def KeyFields.has (k : KeyFields) (n : String) : Bool :=
  (k.get n).isSome

mutual
def KeyFields.beq : KeyFields → KeyFields → Bool
  | .mk a, .mk b => KFList.beq a b
def KFList.beq : KFList → KFList → Bool
  | .nil, .nil => true
  | .cons k v t, .cons k2 v2 t2 => k == k2 && KeyFields.beq v v2 && KFList.beq t t2
  | _, _ => false
end

/-- `Deprecation`. -/
inductive Deprecation : Type where
  | noDeprecated : Deprecation
  | deprecated (reason : Option String) : Deprecation

def Deprecation.beq : Deprecation → Deprecation → Bool
  | .noDeprecated, .noDeprecated => true
  | .deprecated a, .deprecated b => a == b
  | _, _ => false

/-- `MetaInputValue`. -/
structure MetaInputValue : Type where
  description : Option String
  name : String
  ty : Ty
  defaultValue : Option ConstValue

def optBeq {α : Type} (f : α → α → Bool) : Option α → Option α → Bool
  | none, none => true
  | some a, some b => f a b
  | _, _ => false

def MetaInputValue.beq (a b : MetaInputValue) : Bool :=
  a.description == b.description && a.name == b.name && a.ty.beq b.ty &&
    optBeq ConstValue.beq a.defaultValue b.defaultValue

/-- `MetaEnumValue`. -/
structure MetaEnumValue : Type where
  description : Option String
  value : String
  deprecation : Deprecation

def MetaEnumValue.beq (a b : MetaEnumValue) : Bool :=
  a.description == b.description && a.value == b.value && a.deprecation.beq b.deprecation

/-- `MetaField`.

The copy of `MetaField` in `src` carries `service`, `requires` and
`provides`; the planner additionally reads `tags` and `inaccessible`, whose
declaring version of the struct is absent from `src`.  Modelled from the
spec: `tags` is the set of `@tag` names aggregated on the field and
`inaccessible` is true iff the field is annotated `@inaccessible` (spec §3);
`combine` in `src` never populates them, so the composer leaves them at
their defaults. -/
structure MetaField : Type where
  description : Option String
  name : String
  arguments : List (String × MetaInputValue)
  ty : Ty
  deprecation : Deprecation
  service : Option String
  requires : Option KeyFields
  provides : Option KeyFields
  tags : List String := []
  inaccessible : Bool := false

def assocBeq {α : Type} (f : α → α → Bool) (a b : List (String × α)) : Bool :=
  a.length == b.length &&
    (a.zip b).all (fun p => p.1.1 == p.2.1 && f p.1.2 p.2.2)

def MetaField.beq (a b : MetaField) : Bool :=
  a.description == b.description && a.name == b.name &&
    assocBeq MetaInputValue.beq a.arguments b.arguments && a.ty.beq b.ty &&
    a.deprecation.beq b.deprecation && a.service == b.service &&
    optBeq KeyFields.beq a.requires b.requires &&
    optBeq KeyFields.beq a.provides b.provides

/-- `TypeKind` of a composed type. -/
inductive MTypeKind : Type where
  | scalar : MTypeKind
  | object : MTypeKind
  | interface : MTypeKind
  | union : MTypeKind
  | enum : MTypeKind
  | inputObject : MTypeKind
  deriving DecidableEq

/-- `MetaType`.  `keys` maps a service name to the list of its `@key` field
sets.  As for `MetaField`, the `inaccessible`/`tags` members read by the
planner are modelled from the spec (§3) and left at their defaults by the
composer in `src`. -/
structure MetaType : Type where
  description : Option String
  name : String
  kind : MTypeKind
  owner : Option String
  keys : List (String × List KeyFields)
  isEntity : Bool
  implements : List String
  fields : List (String × MetaField)
  possibleTypes : List String
  enumValues : List (String × MetaEnumValue)
  inputFields : List (String × MetaInputValue)
  tags : List String := []
  inaccessible : Bool := false

/-- Rust `PartialEq` on `MetaType` (used by the `meta_type2 != &meta_type`
check of the composer).  Deviation: Rust compares `IndexMap`/`IndexSet`/
`HashMap` members ignoring order, while this comparison is
insertion-order sensitive; the difference is observable only when two
subgraphs give identical non-object definitions with members in a different
order, a situation none of the verified claims exercises. -/
def MetaType.beq (a b : MetaType) : Bool :=
  a.description == b.description && a.name == b.name && a.kind == b.kind &&
    a.owner == b.owner &&
    assocBeq (fun x y => x.length == y.length &&
      (x.zip y).all (fun p => KeyFields.beq p.1 p.2)) a.keys b.keys &&
    a.isEntity == b.isEntity && a.implements == b.implements &&
    assocBeq MetaField.beq a.fields b.fields &&
    a.possibleTypes == b.possibleTypes &&
    assocBeq MetaEnumValue.beq a.enumValues b.enumValues &&
    assocBeq MetaInputValue.beq a.inputFields b.inputFields

/-- `CombineError` (`crates/schema/src/error.rs`). -/
inductive CombineError : Type where
  | definitionConflicted (typeName : String)
  | typeKindConflicted (typeName kind1 kind2 : String)
  | fieldConflicted (typeName fieldName : String)
  | fieldTypeConflicted (typeName fieldName type1 type2 : String)
  | valueTypeOwnershipConflicted (typeName ownerService currentService : String)
  | nonShareableFieldReferenced (typeName fieldName service : String)
  | incompatibleFieldArguments (typeName fieldName service1 service2 : String)
  | missingRequiredArgument (typeName fieldName argName service : String)
  | incompatibleArgumentTypes (typeName fieldName argName type1 type2 : String)
  | keyFieldsMissing (typeName fieldName service : String)
  | incompleteEntityReference (typeName service : String) (missingFields : List String)
  deriving DecidableEq

/-- `ComposedSchema`.  The `directives` table (populated by
`ComposedSchema::new` and by the built-in schema only) is not modelled: no
verified claim reads it. -/
structure ComposedSchema : Type where
  queryType : Option String := none
  mutationType : Option String := none
  subscriptionType : Option String := none
  types : List (String × MetaType) := []
  federationVersion : Option String := none
  directiveMapping : List (String × String) := []
  federationNamespace : Option String := none

/-! ## Directive-argument helpers (`composed_schema.rs` lines 845-869) -/

/-- `get_argument`. -/
def getArgument (arguments : List (String × ConstValue)) (name : String) : Option ConstValue :=
  assocGet arguments name

/-- `get_argument_str`. -/
def getArgumentStr (arguments : List (String × ConstValue)) (name : String) : Option String :=
  match getArgument arguments name with
  | some (.strV s) => some s
  | _ => none

/-- `get_argument_bool`. -/
def getArgumentBool (arguments : List (String × ConstValue)) (name : String) : Option Bool :=
  match getArgument arguments name with
  | some (.boolV b) => some b
  | _ => none

/-- `has_directive`. -/
def hasDirective (directives : List ConstDirective) (name : String) : Bool :=
  directives.any (fun d => d.name = name)

/-- `get_deprecated`. -/
def getDeprecated (directives : List ConstDirective) : Deprecation :=
  match directives.find? (fun d => d.name = "deprecated") with
  | some d => .deprecated (getArgumentStr d.arguments "reason")
  | none => .noDeprecated

/-! ## `parse_fields` (`composed_schema.rs` lines 871-878 and 1142-1156)

The source parses a key field set by handing `"{<fields>}"` to the external
GraphQL parser and then converting the resulting `SelectionSet` with
`convert_key_fields` (which keeps plain fields only).  The parser is an
external collaborator (spec §1); it is modelled here at its boundary for the
sub-language key field sets use: nested plain field names, braces, and
ignored whitespace/commas.  Any other character, unbalanced braces and empty
selection sets are parse failures, as in GraphQL. -/

inductive KTok : Type where
  | name : String → KTok
  | lb : KTok
  | rb : KTok

def isNameChar (c : Char) : Bool := c.isAlpha || c.isDigit || c = '_'

def isIgnoredChar (c : Char) : Bool := c = ' ' || c = '\t' || c = '\n' || c = '\r' || c = ','

def flushName (cur : List Char) : List KTok :=
  match cur with
  | [] => []
  | _ => [.name (String.mk cur.reverse)]

def tokenizeKeyFields (cur : List Char) (acc : List KTok) : List Char → Option (List KTok)
  | [] => some (acc ++ flushName cur)
  | c :: rest =>
    if isNameChar c then tokenizeKeyFields (c :: cur) acc rest
    else
      let acc2 := acc ++ flushName cur
      if c = '{' then tokenizeKeyFields [] (acc2 ++ [.lb]) rest
      else if c = '}' then tokenizeKeyFields [] (acc2 ++ [.rb]) rest
      else if isIgnoredChar c then tokenizeKeyFields [] acc2 rest
      else none

def KFList.removeKey : KFList → String → KFList
  | .nil, _ => .nil
  | .cons k v t, k2 => if k = k2 then t else .cons k v (t.removeKey k2)

/-- Collecting a parsed field in front of already-collected siblings with
`IndexMap`-collect semantics: a duplicate name keeps the first position but
the last value. -/
def KFList.collectCons (n : String) (c : KeyFields) (sibs : KFList) : KFList :=
  match sibs.get n with
  | some v => .cons n v (sibs.removeKey n)
  | none => .cons n c sibs

def parseKeySels : Nat → List KTok → Option (KFList × List KTok)
  | 0, _ => none
  | fuel + 1, toks =>
    match toks with
    | .name n :: .lb :: rest =>
      match parseKeySels fuel rest with
      | some (children, .rb :: rest2) =>
        if children.isEmpty then none
        else
          match parseKeySels fuel rest2 with
          | some (sibs, rem) => some (KFList.collectCons n (.mk children) sibs, rem)
          | none => none
      | _ => none
    | .name n :: rest =>
      match parseKeySels fuel rest with
      | some (sibs, rem) => some (KFList.collectCons n (.mk .nil) sibs, rem)
      | none => none
    | _ => some (.nil, toks)

/-- `parse_fields` composed with `convert_key_fields`. -/
def parseFields (s : String) : Option KeyFields :=
  match tokenizeKeyFields [] [] s.data with
  | none => none
  | some toks =>
    match parseKeySels (toks.length + 1) toks with
    | some (l, []) => if l.isEmpty then none else some (.mk l)
    | _ => none

/-! ## Conversion of definitions (`composed_schema.rs` lines 955-1165) -/

/-- `convert_input_value_definition`. -/
def convertInputValueDefinition (arg : InputValueDefinition) : MetaInputValue :=
  { description := arg.description
    name := arg.name
    ty := arg.ty
    defaultValue := arg.defaultValue }

/-- `convert_field_definition`. -/
def convertFieldDefinition (d : FieldDefinition) : MetaField :=
  let base : MetaField :=
    { description := d.description
      name := d.name
      arguments := d.arguments.foldl
        (fun acc a => assocPut acc a.name (convertInputValueDefinition a)) []
      ty := d.ty
      deprecation := getDeprecated d.directives
      service := none
      requires := none
      provides := none }
  d.directives.foldl
    (fun fd dir =>
      if dir.name = "resolve" then
        match getArgumentStr dir.arguments "service" with
        | some s => { fd with service := some s }
        | none => fd
      else if dir.name = "requires" then
        match getArgumentStr dir.arguments "fields" with
        | some f => { fd with requires := parseFields f }
        | none => fd
      else if dir.name = "provides" then
        match getArgumentStr dir.arguments "fields" with
        | some f => { fd with provides := parseFields f }
        | none => fd
      else fd)
    base

/-- An `IndexSet` insert: skip existing, else append. -/
def setInsert (l : List String) (s : String) : List String :=
  if strListHas l s then l else l ++ [s]

/-- An empty object `MetaType`, as created by the `or_insert_with` closures
of `combine`. -/
def emptyObjectType (description : Option String) (name : String) : MetaType :=
  { description := description
    name := name
    kind := .object
    owner := none
    keys := []
    isEntity := false
    implements := []
    fields := []
    possibleTypes := []
    enumValues := []
    inputFields := [] }

/-- `convert_type_definition`. -/
def convertTypeDefinition (d : TypeDefinition) : MetaType :=
  let base := { emptyObjectType d.description d.name with kind := MTypeKind.scalar }
  let withKind : MetaType :=
    match d.kind with
    | .scalar => { base with kind := .scalar }
    | .object impl fs =>
      { base with
          kind := .object
          implements := impl.foldl setInsert []
          fields := fs.foldl (fun acc f => assocPut acc f.name (convertFieldDefinition f)) [] }
    | .interface impl fs =>
      { base with
          kind := .interface
          implements := impl.foldl setInsert []
          fields := fs.foldl (fun acc f => assocPut acc f.name (convertFieldDefinition f)) [] }
    | .union members => { base with kind := .union, possibleTypes := members.foldl setInsert [] }
    | .enum values =>
      { base with
          kind := .enum
          enumValues := values.foldl
            (fun acc v => assocPut acc v.value
              { description := v.description
                value := v.value
                deprecation := getDeprecated v.directives }) [] }
    | .inputObject fs =>
      { base with
          kind := .inputObject
          inputFields := fs.foldl
            (fun acc f => assocPut acc f.name (convertInputValueDefinition f)) [] }
  d.directives.foldl
    (fun mt dir =>
      if dir.name = "shareable" then { mt with owner := none }
      else if dir.name = "owner" then
        match getArgumentStr dir.arguments "service" with
        | some s => { mt with owner := some s }
        | none => mt
      else if dir.name = "key" then
        match getArgumentStr dir.arguments "fields", getArgumentStr dir.arguments "service" with
        | some f, some svc =>
          match parseFields f with
          | some ks => { mt with keys := assocUpdate mt.keys svc [] (fun l => l ++ [ks]) }
          | none => mt
        | _, _ => mt
      else mt)
    withKind

/-! ## `@link` processing (`composed_schema.rs` lines 880-953)

These functions are called from `ComposedSchema::new` (the single-document
constructor); `ComposedSchema::combine` skips `TypeSystemDefinition::Schema`
entries entirely. -/

/-- Substring test (`str::contains`). -/
def charsContainSub (sub : List Char) : List Char → Bool
  | [] => sub.isPrefixOf []
  | c :: rest => sub.isPrefixOf (c :: rest) || charsContainSub sub rest

def strContainsSub (s sub : String) : Bool :=
  charsContainSub sub.data s.data

/-- `str::split(c)`. -/
def splitOnCharAux (c : Char) (cur : List Char) : List Char → List String
  | [] => [String.mk cur.reverse]
  | d :: rest =>
    if d = c then String.mk cur.reverse :: splitOnCharAux c [] rest
    else splitOnCharAux c (d :: cur) rest

def splitOnChar (c : Char) (s : String) : List String :=
  splitOnCharAux c [] s.data

/-- `str::strip_prefix('v')` with fallback to the input. -/
def stripVPrefix (s : String) : String :=
  match s.data with
  | 'v' :: rest => String.mk rest
  | _ => s

/-- One entry of an `@link` `import:` list. -/
def processLinkImport (schema : ComposedSchema) : ConstValue → ComposedSchema
  | .strV directiveName =>
    match directiveName.data with
    | '@' :: rest =>
      let n := String.mk rest
      { schema with directiveMapping := assocPut schema.directiveMapping n n }
    | _ => schema
  | .objV obj =>
    (match obj.get "name", obj.get "as" with
     | some (.strV nm), some (.strV asName) =>
       (match nm.data, asName.data with
        | '@' :: rest, '@' :: rest2 =>
          let original := String.mk rest
          let renamed := String.mk rest2
          { schema with directiveMapping := assocPut schema.directiveMapping renamed original }
        | _, _ => schema)
     | _, _ => schema)
  | _ => schema

def cvListToList : CVList → List ConstValue
  | .nil => []
  | .cons v t => v :: cvListToList t

/-- `process_link_directive`. -/
def processLinkDirective (schema : ComposedSchema) (directive : ConstDirective) : ComposedSchema :=
  match getArgumentStr directive.arguments "url" with
  | none => schema
  | some url =>
    let schema :=
      if strContainsSub url "federation" then
        let schema :=
          match (splitOnChar '/' url).getLast? with
          | some version => { schema with federationVersion := some (stripVPrefix version) }
          | none => schema
        { schema with federationNamespace := some "federation__" }
      else schema
    let schema :=
      match getArgumentStr directive.arguments "as" with
      | some asArg => { schema with federationNamespace := some (asArg ++ "__") }
      | none => schema
    match getArgument directive.arguments "import" with
    | some (.listV imports) => (cvListToList imports).foldl processLinkImport schema
    | _ => schema

/-- `convert_schema_definition` (used by `ComposedSchema::new` only). -/
def convertSchemaDefinition (schema : ComposedSchema) (sd : SchemaDefinition) : ComposedSchema :=
  let schema :=
    { schema with
        queryType := sd.query
        mutationType := sd.mutation
        subscriptionType := sd.subscription }
  sd.directives.foldl
    (fun s d => if d.name = "link" then processLinkDirective s d else s) schema

/-! ## `ComposedSchema::combine` (`composed_schema.rs` lines 268-785) -/

/-- `COMMON_SCALAR_TYPES`. -/
def commonScalarTypes : List String :=
  ["DateTime", "Date", "Time", "JSON", "UUID", "Email", "URL"]

def rootObjects : List String := ["Query", "Mutation", "Subscription"]

/-- GraphQL rendering of a type reference (`Type::to_string`). -/
def Ty.render : Ty → String
  | .mk b n => baseRender b ++ (if n then "" else "!")
where baseRender : BaseTy → String
  | .named s => s
  | .listTy t => "[" ++ Ty.render t ++ "]"

/-- `format!("{:?}", kind)`. -/
def MTypeKind.render : MTypeKind → String
  | .scalar => "Scalar"
  | .object => "Object"
  | .interface => "Interface"
  | .union => "Union"
  | .enum => "Enum"
  | .inputObject => "InputObject"

/-- The accumulated original type definitions
(`original_type_definitions : HashMap<String, HashMap<String, _>>`,
type name → service → last stored definition). -/
def OrigDefs : Type := List (String × List (String × TypeDefinition))

/-- First pass of `combine` for one subgraph: store its type definitions for
later validation (lines 303-312). -/
def addOrigDefs (m : OrigDefs) (service : String) (doc : ServiceDocument) : OrigDefs :=
  doc.definitions.foldl
    (fun acc d =>
      match d with
      | .typeDef td => assocUpdate acc td.name [] (fun inner => assocPut inner service td)
      | _ => acc)
    m

/-- Does any stored definition of the type carry `@shareable`
(lines 386-396)? -/
def origAnyShareable (origDefs : OrigDefs) (typeName : String) : Bool :=
  match assocGet origDefs typeName with
  | some defs => defs.any (fun p => hasDirective p.2.directives "shareable")
  | none => false

/-- All top-level key field names of a type, over every service and every
`@key` declaration (lines 419-425). -/
def allKeyFieldNames (keys : List (String × List KeyFields)) : List String :=
  ((keys.map Prod.snd).flatten.map KeyFields.topNames).flatten

/-- The missing-field set of the entity-completeness check after removing
key fields and the always-allowed `"id"` (lines 428-432). -/
def missingNonKeyFields (missingFields keyFieldNames : List String) : List String :=
  (missingFields.filter (fun f => !strListHas keyFieldNames f)).filter (fun f => f ≠ "id")

/-- The entity-completeness check of `combine` (lines 400-450), reached when
the type is an entity with previously accumulated fields and is not
shareable in any service.  Returns the `IncompleteEntityReference` error, if
any.  `accFieldsEmpty` is `meta_type.fields.is_empty()` (re-tested by the
source inside the check). -/
def entityCompletenessError (typeName service : String)
    (currentFields originalFields keyFieldNames : List String)
    (accFieldsEmpty : Bool) : Option CombineError :=
  let missingFields := originalFields.filter (fun f => !strListHas currentFields f)
  if !missingFields.isEmpty && !accFieldsEmpty then
    let missingNonKey := missingNonKeyFields missingFields keyFieldNames
    if !missingNonKey.isEmpty then
      let onlyKeyFields := currentFields.all (fun f => strListHas keyFieldNames f || f = "id")
      if !onlyKeyFields then
        some (.incompleteEntityReference typeName service missingNonKey)
      else none
    else none
  else none

/-- Is the field name a top-level key field of the type for this service
(lines 467-476 and 500-509)? -/
def isEntityKeyField (keys : List (String × List KeyFields)) (service fieldName : String) : Bool :=
  match assocGet keys service with
  | some value => value.any (fun kf => strListHas kf.topNames fieldName)
  | none => false

/-- First required argument of `args` that is missing from `other` or has a
different type there.  Mirrors the shape of the two argument-compatibility
loops (lines 525-564 and 568-611), which break at the first issue. -/
def firstRequiredArgIssue (args other : List (String × MetaInputValue)) :
    Option (String × MetaInputValue × Option MetaInputValue) :=
  args.findSome? (fun p =>
    let (argName, arg) := p
    if !arg.ty.nullable && arg.defaultValue.isNone then
      match assocGet other argName with
      | some otherArg => if !(Ty.beq otherArg.ty arg.ty) then some (argName, arg, some otherArg) else none
      | none => some (argName, arg, none)
    else none)

/-- The argument-compatibility block for a redeclared field
(lines 519-628). -/
def checkFieldArguments (typeName fieldName service : String) (isFieldShareable : Bool)
    (existingField newField : MetaField) : Except CombineError Unit :=
  if !existingField.arguments.isEmpty || !newField.arguments.isEmpty then
    let r1 : Except CombineError Bool :=
      match firstRequiredArgIssue existingField.arguments newField.arguments with
      | none => .ok true
      | some (argName, arg, some newArg) =>
        if !isFieldShareable then
          .error (.incompatibleArgumentTypes typeName fieldName argName arg.ty.render newArg.ty.render)
        else .ok false
      | some (argName, _, none) =>
        if !isFieldShareable then
          .error (.missingRequiredArgument typeName fieldName argName service)
        else .ok false
    match r1 with
    | .error e => .error e
    | .ok compat1 =>
      let r2 : Except CombineError Bool :=
        match firstRequiredArgIssue newField.arguments existingField.arguments with
        | none => .ok true
        | some (argName, existingArg, some arg) =>
          if !isFieldShareable then
            .error (.incompatibleArgumentTypes typeName fieldName argName existingArg.ty.render arg.ty.render)
          else .ok false
        | some (argName, _, none) =>
          if !isFieldShareable then
            .error (.missingRequiredArgument typeName fieldName argName
              (existingField.service.getD "unknown"))
          else .ok false
      match r2 with
      | .error e => .error e
      | .ok compat2 =>
        if !(compat1 && compat2) && !isFieldShareable then
          .error (.incompatibleFieldArguments typeName fieldName
            (existingField.service.getD "unknown") service)
        else .ok ()
  else .ok ()

/-- Merge one field declaration into the accumulated type
(lines 458-658, loop body). -/
def mergeObjectField (service typeName : String) (isExtend typeIsShareable : Bool)
    (allFields : List FieldDefinition) (mt : MetaType) (f : FieldDefinition) :
    Except CombineError MetaType :=
  if isExtend && hasDirective f.directives "external" then
    let fieldName := f.name
    let isFieldEntityKey := isEntityKeyField mt.keys service fieldName
    if !isFieldEntityKey then
      let originalField := allFields.find? (fun f2 => f2.name = fieldName)
      let isFieldShareable :=
        match originalField with
        | some f2 => hasDirective f2.directives "shareable"
        | none => false
      if !typeIsShareable && !isFieldShareable then
        .error (.nonShareableFieldReferenced typeName fieldName service)
      else .ok mt
    else .ok mt
  else
    match assocGet mt.fields f.name with
    | some existingField =>
      let isFieldShareable := hasDirective f.directives "shareable"
      let isFieldEntityKey := isEntityKeyField mt.keys service f.name
      let newField := convertFieldDefinition f
      (match checkFieldArguments typeName f.name service isFieldShareable existingField newField with
       | .error e => .error e
       | .ok _ =>
         if !typeIsShareable && !isFieldShareable && !isFieldEntityKey then
           if !(Ty.beq existingField.ty newField.ty) then
             .error (.fieldTypeConflicted typeName f.name existingField.ty.render newField.ty.render)
           else
             .error (.fieldConflicted typeName f.name)
         else
           let metaField := convertFieldDefinition f
           let metaField := if isExtend then { metaField with service := some service } else metaField
           .ok { mt with fields := assocPut mt.fields metaField.name metaField })
    | none =>
      let metaField := convertFieldDefinition f
      let metaField := if isExtend then { metaField with service := some service } else metaField
      .ok { mt with fields := assocPut mt.fields metaField.name metaField }

def mergeObjectFields (service typeName : String) (isExtend typeIsShareable : Bool)
    (allFields : List FieldDefinition) :
    MetaType → List FieldDefinition → Except CombineError MetaType
  | mt, [] => .ok mt
  | mt, f :: rest =>
    match mergeObjectField service typeName isExtend typeIsShareable allFields mt f with
    | .ok mt2 => mergeObjectFields service typeName isExtend typeIsShareable allFields mt2 rest
    | .error e => .error e

/-- The `@shareable`/`@key` directive scan over an object definition
(lines 336-366): returns the updated type (entity flag, appended keys)
together with `type_is_shareable` and `type_is_resolvable`. -/
def scanObjectDirectives (service : String) (directives : List ConstDirective)
    (mt : MetaType) : MetaType × Bool × Bool :=
  directives.foldl
    (fun acc d =>
      let (mt, sh, res) := acc
      let sh := if d.name = "shareable" then true else sh
      if d.name = "key" then
        let mt := { mt with isEntity := true }
        let mt :=
          match getArgumentStr d.arguments "fields" with
          | some f =>
            match parseFields f with
            | some ks => { mt with keys := assocUpdate mt.keys service [] (fun l => l ++ [ks]) }
            | none => mt
          | none => mt
        let res :=
          match getArgumentBool d.arguments "resolvable" with
          | some b => b
          | none => res
        (mt, sh, res)
      else (mt, sh, res))
    (mt, false, true)

/-- The entity-completeness gate of `processObjectType` (lines 400-450),
reached with the accumulated type `mt2` after the ownership update. -/
def objectCompleteness (origDefs : OrigDefs) (service : String)
    (typeIsShareable : Bool) (mt2 : MetaType) (fields : List FieldDefinition) :
    Option CombineError :=
  if mt2.isEntity && !mt2.fields.isEmpty then
    let typeIsShareableInAnyService :=
      typeIsShareable || mt2.owner.isNone || origAnyShareable origDefs mt2.name
    if !typeIsShareableInAnyService then
      entityCompletenessError mt2.name service (fields.map (·.name))
        (assocKeys mt2.fields) (allKeyFieldNames mt2.keys) mt2.fields.isEmpty
    else none
  else none

/-- The tail of `processObjectType`: the completeness gate followed by the
field merge and the write-back of the merged type. -/
def processObjectTypeTail (origDefs : OrigDefs) (types0 : List (String × MetaType))
    (service name : String) (isExtend typeIsShareable : Bool)
    (implements : List String) (fields : List FieldDefinition) (mt2 : MetaType) :
    Except CombineError (List (String × MetaType)) :=
  match objectCompleteness origDefs service typeIsShareable mt2 fields with
  | some e => .error e
  | none =>
    let mt3 := { mt2 with implements := implements.foldl setInsert mt2.implements }
    match mergeObjectFields service name isExtend typeIsShareable fields mt3 fields with
    | .ok mt4 => .ok (assocPut types0 name mt4)
    | .error e => .error e

/-- Processing of one object type definition inside `combine`
(lines 318-658).  Returns the updated `types` map. -/
def processObjectType (origDefs : OrigDefs) (types : List (String × MetaType))
    (service : String) (td : TypeDefinition) (implements : List String)
    (fields : List FieldDefinition) : Except CombineError (List (String × MetaType)) :=
  let name := td.name
  let isExtend := td.extend || strListHas rootObjects name
  let types0 :=
    if assocHas types name then types
    else types ++ [(name, emptyObjectType td.description name)]
  let mt0 := (assocGet types0 name).getD (emptyObjectType td.description name)
  let alreadyShareable := mt0.owner.isNone
  let (mt1, typeIsShareable, typeIsResolvable) := scanObjectDirectives service td.directives mt0
  let mt2 :=
    if typeIsShareable || alreadyShareable then { mt1 with owner := none }
    else if !isExtend && !typeIsShareable && typeIsResolvable then
      if !mt1.isEntity then { mt1 with owner := some service } else mt1
    else mt1
  processObjectTypeTail origDefs types0 service name isExtend typeIsShareable
    implements fields mt2

/-- Processing of one non-object type definition inside `combine`
(lines 659-730).  Returns the updated `types` map. -/
def processNonObjectType (types : List (String × MetaType)) (service : String)
    (td : TypeDefinition) : Except CombineError (List (String × MetaType)) :=
  let typeIsShareable := hasDirective td.directives "shareable"
  let metaType := convertTypeDefinition td
  match assocGet types metaType.name with
  | some metaType2 =>
    let bothAreScalars := metaType.kind == MTypeKind.scalar && metaType2.kind == MTypeKind.scalar
    let isCommonScalar := strListHas commonScalarTypes metaType.name
    if bothAreScalars && isCommonScalar then
      .ok types
    else
      let ownershipConflict : Bool :=
        match metaType2.owner with
        | some _ => !typeIsShareable && !metaType2.isEntity
        | none => false
      match metaType2.owner, ownershipConflict with
      | some ownerService, true =>
        .error (.valueTypeOwnershipConflicted metaType.name ownerService service)
      | _, _ =>
        if !(metaType2.beq metaType) then
          if metaType2.kind != metaType.kind then
            .error (.typeKindConflicted metaType.name metaType2.kind.render metaType.kind.render)
          else
            .error (.definitionConflicted metaType.name)
        else if typeIsShareable then
          .ok (assocPut types metaType.name { metaType2 with owner := none })
        else
          .ok types
  | none =>
    let typeToInsert :=
      if !typeIsShareable then { metaType with owner := some service } else metaType
    .ok (assocPut types typeToInsert.name typeToInsert)

/-- Mutable state of the `combine` loop: the schema under construction and
the accumulated original type definitions. -/
structure CombineState : Type where
  schema : ComposedSchema
  origDefs : OrigDefs

/-- Second-pass processing of one definition (lines 315-734). -/
def processDefinition (service : String) (st : CombineState) :
    TypeSystemDefinition → Except CombineError CombineState
  | .typeDef td =>
    (match td.kind with
     | .object impl fs =>
       (match processObjectType st.origDefs st.schema.types service td impl fs with
        | .ok types2 => .ok { st with schema := { st.schema with types := types2 } }
        | .error e => .error e)
     | _ =>
       (match processNonObjectType st.schema.types service td with
        | .ok types2 => .ok { st with schema := { st.schema with types := types2 } }
        | .error e => .error e))
  | .schemaDef _ => .ok st
  | .directiveDef _ => .ok st

def processDefinitions (service : String) :
    CombineState → List TypeSystemDefinition → Except CombineError CombineState
  | st, [] => .ok st
  | st, d :: rest =>
    match processDefinition service st d with
    | .ok st2 => processDefinitions service st2 rest
    | .error e => .error e

/-- Both passes of `combine` for one subgraph (lines 302-736). -/
def combineService (st : CombineState) (entry : String × ServiceDocument) :
    Except CombineError CombineState :=
  let (service, doc) := entry
  let st := { st with origDefs := addOrigDefs st.origDefs service doc }
  processDefinitions service st doc.definitions

def combineServices : CombineState → List (String × ServiceDocument) →
    Except CombineError CombineState
  | st, [] => .ok st
  | st, e :: rest =>
    match combineService st e with
    | .ok st2 => combineServices st2 rest
    | .error e => .error e

/-- Stable insertion sort of the subgraph list by service name, the model of
`sorted_services.sort_by(|(a, _), (b, _)| a.cmp(b))` (Rust `sort_by` is
stable; so is insertion before the first greater-or-equal element). -/
def insertServiceSorted {α : Type} (x : String × α) :
    List (String × α) → List (String × α)
  | [] => [x]
  | y :: t => if strLe x.1 y.1 then x :: y :: t else y :: insertServiceSorted x t

def sortServices {α : Type} : List (String × α) → List (String × α)
  | [] => []
  | x :: t => insertServiceSorted x (sortServices t)

/-- The seeded schema of `combine` (lines 271-293). -/
def initialCombineSchema : ComposedSchema :=
  { queryType := some "Query"
    mutationType := some "Mutation"
    subscriptionType := some "Subscription"
    types := rootObjects.map (fun n => (n, emptyObjectType none n)) }

/-- `IndexMap::swap_remove`: the removed entry is replaced by the last
entry. -/
def assocSwapRemove {α : Type} (l : List (String × α)) (k : String) : List (String × α) :=
  match l with
  | [] => []
  | (k2, v) :: t =>
    if k2 = k then
      match t.getLast? with
      | some lastEntry => lastEntry :: t.dropLast
      | none => []
    else (k2, v) :: assocSwapRemove t k

/-- Dropping of empty `Mutation`/`Subscription` roots (lines 738-750). -/
def dropEmptyRoots (schema : ComposedSchema) : ComposedSchema :=
  let schema :=
    match assocGet schema.types "Mutation" with
    | some mt =>
      if mt.fields.isEmpty then
        { schema with types := assocSwapRemove schema.types "Mutation", mutationType := none }
      else schema
    | none => schema
  match assocGet schema.types "Subscription" with
  | some st =>
    if st.fields.isEmpty then
      { schema with types := assocSwapRemove schema.types "Subscription", subscriptionType := none }
    else schema
  | none => schema

/-- The key-validation pass of `combine` (lines 752-781): the first
`KeyFieldsMissing` error, if any.  For every entity type and every service
that declared keys for it, each top-level key field name must be a field of
the (last stored) object definition of that type in that service. -/
def keyValidationError (types : List (String × MetaType)) (origDefs : OrigDefs) :
    Option CombineError :=
  types.findSome? (fun p =>
    let (typeName, mt) := p
    if mt.isEntity then
      mt.keys.findSome? (fun q =>
        let (service, keyFieldsVec) := q
        match assocGet origDefs typeName with
        | some serviceTypes =>
          match assocGet serviceTypes service with
          | some typeDef =>
            match typeDef.kind with
            | .object _ ofields =>
              let fieldNames := ofields.map (·.name)
              keyFieldsVec.findSome? (fun kf =>
                kf.topNames.findSome? (fun keyFieldName =>
                  if !strListHas fieldNames keyFieldName then
                    some (.keyFieldsMissing typeName keyFieldName service)
                  else none))
            | _ => none
          | none => none
        | none => none)
    else none)

/-- Modelled from the spec: `builtin.graphql` (inlined by `finish_schema`
through `include_str!`) is absent from `src`.  Spec §4.B step 5 injects the
built-in introspection schema; only the presence of the `__Schema` and
`__Type` object types is modelled, since no verified claim reads their
members. -/
def builtinTypeDefs : List TypeDefinition :=
  [ { extend := false, description := none, name := "__Schema", directives := [],
      kind := .object [] [] }
  , { extend := false, description := none, name := "__Type", directives := [],
      kind := .object [] [] } ]

def tyNamed (n : String) (nullable : Bool) : Ty := .mk (.named n) nullable

/-- The `__type` introspection field added to the query root
(lines 1232-1252). -/
def introTypeField : MetaField :=
  { description := none
    name := "__type"
    arguments := [("name",
      { description := none, name := "name", ty := tyNamed "String" false,
        defaultValue := none })]
    ty := tyNamed "__Type" true
    deprecation := .noDeprecated
    service := none
    requires := none
    provides := none }

/-- The `__schema` introspection field added to the query root
(lines 1254-1264). -/
def introSchemaField : MetaField :=
  { description := none
    name := "__schema"
    arguments := []
    ty := tyNamed "__Schema" false
    deprecation := .noDeprecated
    service := none
    requires := none
    provides := none }

/-- The reverse `implements` pass of `finish_schema` (lines 1267-1282). -/
def computePossibleTypes (types : List (String × MetaType)) : List (String × MetaType) :=
  let pt : List (String × List String) :=
    types.foldl
      (fun acc p =>
        let ty := p.2
        if ty.kind == MTypeKind.object then
          ty.implements.foldl (fun acc i => assocUpdate acc i [] (fun l => setInsert l ty.name)) acc
        else acc)
      []
  pt.foldl
    (fun ts q =>
      match assocGet ts q.1 with
      | some mt => assocPut ts q.1 { mt with possibleTypes := q.2 }
      | none => ts)
    types

/-- `finish_schema` (lines 1202-1283), with the built-in document modelled
as `builtinTypeDefs`. -/
def finishSchema (schema : ComposedSchema) : ComposedSchema :=
  let types :=
    builtinTypeDefs.foldl
      (fun ts td =>
        let mt := convertTypeDefinition td
        assocPut ts mt.name mt)
      schema.types
  let qname := schema.queryType.getD "Query"
  let types :=
    match assocGet types qname with
    | some qt =>
      let newFields := assocPut (assocPut qt.fields "__type" introTypeField) "__schema" introSchemaField
      assocPut types qname { qt with fields := newFields }
    | none => types
  { schema with types := computePossibleTypes types }

/-- `ComposedSchema::combine`. -/
def combine (federationSdl : List (String × ServiceDocument)) :
    Except CombineError ComposedSchema :=
  let sortedServices := sortServices federationSdl
  match combineServices { schema := initialCombineSchema, origDefs := [] } sortedServices with
  | .error e => .error e
  | .ok st =>
    let schema := dropEmptyRoots st.schema
    match keyValidationError schema.types st.origDefs with
    | some e => .error e
    | none => .ok (finishSchema schema)

/-! ## Executable documents (operations)

The planner and validator work on parsed operations.  Field arguments,
directives and variables are not modelled: no verified claim depends on
them (the `variables`/`variable_definitions` members of fetch nodes and the
argument printing of queries are correspondingly omitted). -/

mutual
inductive QField : Type where
  | mk : Option String → String → List Selection → QField
inductive Selection : Type where
  | field : QField → Selection
  | fragmentSpread : String → Selection
  | inlineFragment : Option String → List Selection → Selection
end

def QField.alias : QField → Option String
  | .mk a _ _ => a

def QField.name : QField → String
  | .mk _ n _ => n

def QField.selectionSet : QField → List Selection
  | .mk _ _ s => s

/-- `Field::response_key`: the alias, or the field name. -/
def QField.responseKey : QField → String
  | .mk a n _ => a.getD n

/-- `parser::types::FragmentDefinition`. -/
structure FragmentDefinition : Type where
  typeCondition : String
  selectionSet : List Selection

/-- Operation kinds (`parser::types::OperationType`). -/
inductive OpType : Type where
  | query : OpType
  | mutation : OpType
  | subscription : OpType
  deriving DecidableEq

/-- A GraphQL operation definition, reduced to what the verified rules
read: its kind and its root selection set. -/
structure OperationDefinition : Type where
  ty : OpType
  selectionSet : List Selection

/-! ## The single-field-subscriptions rule
(`crates/validation/src/rules/single_field_subscriptions.rs`) -/

/-- `count_fields` (lines 33-55): the number of fields in the effective
selection after expanding fragment spreads and inline fragments.  The
source recurses through fragment definitions without any guard; the fuel
returns the running count when exhausted. -/
def countFields : Nat → List (String × FragmentDefinition) → List Selection → Nat
  | 0, _, _ => 0
  | fuel + 1, fragments, items =>
    items.foldl
      (fun count item =>
        match item with
        | .field _ => count + 1
        | .fragmentSpread fragmentName =>
          match assocGet fragments fragmentName with
          | some fr => count + countFields fuel fragments fr.selectionSet
          | none => count
        | .inlineFragment _ sel => count + countFields fuel fragments sel)
      0

/-- `SingleFieldSubscriptions::enter_operation_definition` (lines 12-31):
the errors this rule reports for one operation. -/
def singleFieldSubscriptionsErrors (fuel : Nat)
    (fragments : List (String × FragmentDefinition)) (op : OperationDefinition) :
    List String :=
  if op.ty == OpType.subscription then
    if countFields fuel fragments op.selectionSet > 1 then
      ["Subscription operations must have exactly one root field"]
    else []
  else []

/-! ## Plan IR (`crates/planner/src/plan.rs` and `types.rs`)

`plan.rs` itself is absent from `src`; the node shapes follow `types.rs`,
the uses in `builder/plan_builder.rs`, and spec §3/§4.D.  As stated above,
`variables`/`variable_definitions` are omitted. -/

/-- `PathSegment`. -/
structure PathSegment : Type where
  name : String
  isList : Bool
  possibleType : Option String
  deriving DecidableEq

/-- `ResponsePath`. -/
abbrev ResponsePath : Type := List PathSegment

/-- `SelectionRef`/`SelectionRefSet` (`types.rs` lines 19-63): the borrowed
selection structure the planner accumulates.  A `SelectionRefSet` is the
payload list. -/
inductive SelectionRef : Type where
  | fieldRef (field : QField) (selectionSet : List SelectionRef)
  | introspectionTypename
  | requiredRef (prefixId : Nat) (fields : KeyFields) (requiresK : Option KeyFields)
  | inlineFragment (typeCondition : Option String) (selectionSet : List SelectionRef)

/-- `IntrospectionField` (arguments and directives omitted). -/
inductive IntrospectionField : Type where
  | mk (name : String) (aliasName : Option String)
      (selectionSet : List IntrospectionField)

/-- `FetchQuery` (`types.rs` lines 72-77), without the variable
definitions. -/
structure FetchQuery : Type where
  entityType : Option String
  operationType : OpType
  selectionSet : List SelectionRef

/-- `PlanNode` with `FetchNode`/`FlattenNode`/`IntrospectionNode` inlined.
Modelled from the spec where `plan.rs` is absent from `src`: spec §3 gives
the five node shapes (`Fetch`, `Flatten` with `path` and `prefix`,
`Sequence`, `Parallel`, `Introspection`). -/
inductive PlanNode : Type where
  | sequence (nodes : List PlanNode)
  | parallel (nodes : List PlanNode)
  | fetch (service : String) (query : FetchQuery)
  | flatten (path : ResponsePath) (prefixId : Nat) (service : String) (query : FetchQuery)
  | introspection (selectionSet : List IntrospectionField)

/-- Modelled from the spec: `PlanNode::flatten()` lives in the absent
`plan.rs`; spec §4.E.6 says "Single-child Sequence/Parallel nodes are
unwrapped".  (Named `flattenOne` to keep it apart from the `Flatten` plan
node.) -/
def PlanNode.flattenOne : PlanNode → PlanNode
  | .sequence [n] => n
  | .parallel [n] => n
  | n => n

/-- `FetchEntityKey` (`types.rs` lines 261-266). -/
structure FetchEntityKey : Type where
  service : String
  path : List PathSegment
  parentType : String
  deriving DecidableEq

/-- `FetchEntity` (`types.rs` lines 254-259). -/
structure FetchEntity : Type where
  parentType : MetaType
  prefixId : Nat
  fields : List QField

/-- `FetchEntityGroup` (an `IndexMap`). -/
abbrev FetchEntityGroup : Type := List (FetchEntityKey × FetchEntity)

def groupHas (g : FetchEntityGroup) (k : FetchEntityKey) : Bool :=
  g.any (fun p => p.1 = k)

/-- `add_fetch_entity`, group part (`field_resolver.rs` lines 446-455): a
new entity is appended, an existing one gets the field pushed. -/
def groupAdd (g : FetchEntityGroup) (k : FetchEntityKey) (parentType : MetaType)
    (pfx : Nat) (field : QField) : FetchEntityGroup :=
  if groupHas g k then
    g.map (fun p => if p.1 = k then (p.1, { p.2 with fields := p.2.fields ++ [field] }) else p)
  else
    g ++ [(k, { parentType := parentType, prefixId := pfx, fields := [field] })]

/-! ## Planner context (`crates/planner/src/builder/context.rs`) -/

/-- The planner context minus the per-plan counter (which is threaded
through the builder state below): the composed schema and the operation's
fragments. -/
structure PContext : Type where
  schema : ComposedSchema
  fragments : List (String × FragmentDefinition)

/-- `ComposedSchema::get_type` (`composed_schema.rs` lines 802-809). -/
def getSchemaType (schema : ComposedSchema) : Ty → Option MetaType
  | .mk (.named n) _ => assocGet schema.types n
  | .mk (.listTy t) _ => getSchemaType schema t

/-- `is_list` (`builder/utils.rs` lines 17-20). -/
def isListType : Ty → Bool
  | .mk (.listTy _) _ => true
  | .mk (.named _) _ => false

/-- `MAX_PATH_LENGTH` (`builder/utils.rs` line 8). -/
def MAX_PATH_LENGTH : Nat := 20

/-- `MAX_FIELD_REPETITIONS` (`builder/utils.rs` line 11). -/
def MAX_FIELD_REPETITIONS : Nat := 2

/-- `MIN_PATH_LENGTH_FOR_PATTERN_CHECK` (`builder/utils.rs` line 14). -/
def MIN_PATH_LENGTH_FOR_PATTERN_CHECK : Nat := 4

/-- `Context::all_selections_satisfied` (`context.rs` lines 110-167): every
selection is covered by the provided key field set; `__typename` is always
available; fragment spreads look up the fragment body (an unknown fragment
fails); the fuel guards the fragment recursion (exhaustion fails, like an
unknown fragment). -/
def allSelectionsSatisfied : Nat → List (String × FragmentDefinition) →
    List Selection → KeyFields → Bool
  | 0, _, _, _ => false
  | fuel + 1, fragments, items, providedFields =>
    items.all
      (fun item =>
        match item with
        | .field f =>
          if f.name = "__typename" then true
          else
            match providedFields.get f.name with
            | none => false
            | some subProvided =>
              if !f.selectionSet.isEmpty then
                allSelectionsSatisfied fuel fragments f.selectionSet subProvided
              else true
        | .fragmentSpread fragmentName =>
          match assocGet fragments fragmentName with
          | some fr => allSelectionsSatisfied fuel fragments fr.selectionSet providedFields
          | none => false
        | .inlineFragment _ sel => allSelectionsSatisfied fuel fragments sel providedFields)

/-- `Context::selection_set_satisfied_by_provides` (`context.rs` lines
89-108).  Note that the first test is whether the `@provides` set contains
the *providing field's own name* at top level. -/
def selectionSetSatisfiedByProvides (fuel : Nat)
    (fragments : List (String × FragmentDefinition)) (fieldName : String)
    (selectionSet : List Selection) (provides : KeyFields) : Bool :=
  if provides.has fieldName then
    if !selectionSet.isEmpty then
      match provides.get fieldName with
      | some providedFields => allSelectionsSatisfied fuel fragments selectionSet providedFields
      | none => false
    else true
  else false

/-- `Context::can_field_be_provided` (`context.rs` lines 60-87). -/
def canFieldBeProvided (fuel : Nat) (ctx : PContext) (parentType : MetaType)
    (field : QField) (currentService : String) (selectionSet : List Selection) : Bool :=
  parentType.fields.any
    (fun p =>
      let metaField := p.2
      if metaField.service ≠ some currentService ∧ parentType.owner ≠ some currentService then
        false
      else
        match metaField.provides with
        | some provides =>
          selectionSetSatisfiedByProvides fuel ctx.fragments field.name selectionSet provides
        | none => false)

/-- `str::split_whitespace`. -/
def splitWhitespaceAux (cur : List Char) : List Char → List String
  | [] => (match cur with | [] => [] | _ => [String.mk cur.reverse])
  | c :: rest =>
    if c.isWhitespace then
      (match cur with
       | [] => splitWhitespaceAux [] rest
       | _ => String.mk cur.reverse :: splitWhitespaceAux [] rest)
    else splitWhitespaceAux (c :: cur) rest

def strSplitWhitespace (s : String) : List String :=
  splitWhitespaceAux [] s.data

/-- Inner `selection_set_in_keys` of `Context::field_in_keys`
(`context.rs` lines 173-202). -/
def selSetInKeys : Nat → List (String × FragmentDefinition) → List Selection →
    KeyFields → Bool
  | 0, _, _, _ => false
  | fuel + 1, fragments, items, keys =>
    items.all
      (fun item =>
        match item with
        | .field f =>
          (match keys.get f.name with
           | some children => selSetInKeys fuel fragments f.selectionSet children
           | none =>
             keys.topNames.any
               (fun keyName => (strSplitWhitespace keyName).any (fun part => part = f.name)))
        | .fragmentSpread n =>
          match assocGet fragments n with
          | some fr => selSetInKeys fuel fragments fr.selectionSet keys
          | none => false
        | .inlineFragment _ sel => selSetInKeys fuel fragments sel keys)

/-- `Context::field_in_keys` (`context.rs` lines 170-222): either the field
name is a top-level key (recursing into its sub-selection), or it is a part
of a whitespace-separated compound key name. -/
def fieldInKeys (fuel : Nat) (fragments : List (String × FragmentDefinition))
    (field : QField) (keys : KeyFields) : Bool :=
  match keys.get field.name with
  | some children => selSetInKeys fuel fragments field.selectionSet children
  | none =>
    keys.topNames.any
      (fun keyName => (strSplitWhitespace keyName).any (fun part => part = field.name))

/-- `FieldResolver::determine_service_for_field` (`field_resolver.rs`
lines 230-259). -/
def determineServiceForField (fuel : Nat) (ctx : PContext)
    (fieldDefinition : MetaField) (parentType : MetaType) (currentService : String)
    (field : QField) : String :=
  let fieldService := fieldDefinition.service
  let canBeProvided := canFieldBeProvided fuel ctx parentType field currentService field.selectionSet
  match fieldService with
  | some service => service
  | none =>
    if canBeProvided then currentService
    else
      match parentType.owner with
      | some service => service
      | none => currentService

/-! ## The field resolver (`crates/planner/src/builder/field_resolver.rs`)

The mutable state of `FieldResolver` is threaded explicitly:
`BSt` carries the per-plan key-prefix counter (`Context::key_id`) and the
fetch-entity group; `BAcc` additionally carries the selection set under
construction, the per-abstract-type selection group and the response path.
All source functions mutate the path in place; baldly, `build_field` can
return with the path longer than it received it (its service-mismatch
branches push a segment and return without popping), so the path is part of
the returned state. -/

structure BSt : Type where
  keyId : Nat
  group : FetchEntityGroup

structure BAcc : Type where
  st : BSt
  sel : List SelectionRef
  absGroup : List (String × List SelectionRef)
  path : ResponsePath

def pushPath (acc : BAcc) (seg : PathSegment) : BAcc :=
  { acc with path := acc.path ++ [seg] }

def popPath (acc : BAcc) : BAcc :=
  { acc with path := acc.path.dropLast }

/-- `path.last_mut().unwrap().possible_type = pt`
(`field_resolver.rs` lines 632 and 642).  The source unwraps; the call
sites guarantee a non-empty path, on which this agrees. -/
def setLastPossibleType (path : ResponsePath) (pt : Option String) : ResponsePath :=
  match path.getLast? with
  | some lastSeg => path.dropLast ++ [{ lastSeg with possibleType := pt }]
  | none => path

/-- `FieldResolver::should_skip_due_to_recursion` (lines 206-221). -/
def shouldSkipDueToRecursion (path : ResponsePath) (field : QField) : Bool :=
  if path.length > MIN_PATH_LENGTH_FOR_PATTERN_CHECK then
    (path.filter (fun seg => seg.name = field.name)).length > MAX_FIELD_REPETITIONS
  else false

/-- `FieldResolver::add_fetch_entity` (lines 426-463) — also the body of
`ProvidesDirectiveHandler::add_fetch_entity` (`provides_handler.rs` lines
33-71), which is identical: mint a prefix, insert or extend the fetch
entity at (service, current path, parent type), and append the field with
an empty sub-selection to the current selection set. -/
def addFetchEntity (acc : BAcc) (field : QField) (parentType : MetaType)
    (service : String) : BAcc :=
  let pfx := acc.st.keyId
  let st : BSt := { keyId := acc.st.keyId + 1, group := acc.st.group }
  let key : FetchEntityKey :=
    { service := service, path := acc.path, parentType := parentType.name }
  let group := groupAdd st.group key parentType pfx field
  { acc with
      st := { st with group := group }
      sel := acc.sel ++ [.fieldRef field []] }

/-- `TagDirectiveHandler::handle` (`tag_handler.rs` lines 26-67): push the
path segment, append the field with an empty sub-selection, pop. -/
def tagHandle (acc : BAcc) (field : QField) (fieldDefinition : MetaField) : BAcc :=
  let acc := pushPath acc
    { name := field.responseKey, isList := isListType fieldDefinition.ty, possibleType := none }
  let acc := { acc with sel := acc.sel ++ [.fieldRef field []] }
  popPath acc

/-- Modelled from the spec: `requires_handler.rs` is absent from `src`.
Spec §4.E.3 step 4: record the field in a pending fetch entity keyed by
(current service, path, parent type) and emit a `RequiredRef` marker
carrying the `@requires` key field set under a fresh numeric prefix.  (The
placement of the required fields on remote services is not modelled; no
verified claim exercises `@requires`.) -/
def requiresHandle (acc : BAcc) (field : QField) (parentType : MetaType)
    (currentService : String) (requiresK : KeyFields) : BAcc :=
  let pfx := acc.st.keyId
  let st : BSt := { keyId := acc.st.keyId + 1, group := acc.st.group }
  let key : FetchEntityKey :=
    { service := currentService, path := acc.path, parentType := parentType.name }
  let group := groupAdd st.group key parentType pfx field
  { acc with
      st := { st with group := group }
      sel := acc.sel ++ [.requiredRef pfx requiresK (some requiresK)] }

/-- `ProvidesDirectiveHandler::handle` (`provides_handler.rs` lines
79-195).  When the `@provides` gate is satisfied the field becomes a fetch
entity on the *current* service; otherwise the handler falls back to the
owner of the field's named return type, then to the first service other
than the current one holding keys for it (the source draws from a
`HashSet`, whose iteration order is arbitrary; the embedding takes the
first in key-map insertion order), then to the current service. -/
def providesHandle (fuel : Nat) (ctx : PContext) (currentService : String)
    (acc : BAcc) (parentType : MetaType) (field : QField)
    (fieldDefinition : MetaField) (provides : KeyFields) : BAcc :=
  let acc := pushPath acc
    { name := field.responseKey, isList := isListType fieldDefinition.ty, possibleType := none }
  let canSatisfy :=
    selectionSetSatisfiedByProvides fuel ctx.fragments field.name field.selectionSet provides
  let acc :=
    if canSatisfy then addFetchEntity acc field parentType currentService
    else
      match fieldDefinition.ty.base with
      | .named fieldTypeName =>
        (match assocGet ctx.schema.types fieldTypeName with
         | some fieldType =>
           (match fieldType.owner with
            | some owner => addFetchEntity acc field parentType owner
            | none =>
              match ((assocKeys fieldType.keys).filter (fun s => s ≠ currentService)).head? with
              | some svc => addFetchEntity acc field parentType svc
              | none => addFetchEntity acc field parentType currentService)
         | none => addFetchEntity acc field parentType currentService)
      | .listTy _ => acc
  popPath acc

/-- `FieldResolver::handle_service_mismatch` (lines 263-364).  Note the
path bookkeeping of the source: the branches that add a fetch entity
`return` without popping the segment they pushed, so the path comes back
one segment longer. -/
def handleServiceMismatch (fuel : Nat) (ctx : PContext) (acc : BAcc)
    (service : String) (parentType : MetaType) (field : QField)
    (fieldDefinition : MetaField) : BAcc :=
  let acc := pushPath acc
    { name := field.responseKey, isList := isListType fieldDefinition.ty, possibleType := none }
  let keys0 := (assocGet parentType.keys service).bind List.head?
  let keys1 :=
    match keys0 with
    | none =>
      (match parentType.owner with
       | some owner => (assocGet parentType.keys owner).bind List.head?
       | none => none)
    | some k => some k
  match keys1 with
  | none => popPath acc
  | some keys =>
    let fieldDefinedInService := fieldDefinition.service == some service
    let fieldHasProvides := fieldDefinition.provides.isSome
    let providesCanSatisfy :=
      match fieldDefinition.provides with
      | some provides =>
        selectionSetSatisfiedByProvides fuel ctx.fragments field.name field.selectionSet provides
      | none => false
    if fieldDefinedInService || (fieldHasProvides && providesCanSatisfy) ||
        !(fieldInKeys fuel ctx.fragments field keys) then
      addFetchEntity acc field parentType service
    else if fieldHasProvides && !providesCanSatisfy then
      match fieldDefinition.ty.base with
      | .named fieldTypeName =>
        (match assocGet ctx.schema.types fieldTypeName with
         | some fieldType =>
           (match fieldType.owner with
            | some owner => addFetchEntity acc field parentType owner
            | none => popPath acc)
         | none => popPath acc)
      | .listTy _ => popPath acc
    else popPath acc

/-- The call graph of the resolver.  The mutually recursive source
functions (`build_field`, `build_selection_set`,
`build_abstract_selection_set` with its inner loop over possible types and
its inner `build_fields`) are compiled into one fuel-indexed function so
that the recursion is structural (mutual definitions do not reduce inside
the kernel); each variant corresponds to one source function. -/
inductive BCall : Type where
  | bf (parentType : MetaType) (field : QField)
  | bss (parentType : MetaType) (items : List Selection)
  | bass (parentType : MetaType) (items : List Selection)
  | babsTypes (possibleTypes : List String) (items : List Selection)
  | babsFields (possibleType : MetaType) (items : List Selection)

/-- Operation order of `build_field` (lines 52-203, variant `bf`):
recursion guards, field lookup, `@inaccessible` skips, service
determination, the `@tag`/`@provides`/`@requires` handlers, the
service-mismatch path, and finally
`process_field_in_current_service` (lines 368-422, inlined in the `bf`
arm). -/
def build : Nat → PContext → String → BAcc → BCall → BAcc
  | 0, _, _, acc, _ => acc
  | fuel + 1, ctx, currentService, acc, call =>
    match call with
    | .bf parentType field =>
      if acc.path.length > MAX_PATH_LENGTH then acc
      else if shouldSkipDueToRecursion acc.path field then acc
      else
        match assocGet parentType.fields field.name with
        | none => acc
        | some fieldDefinition =>
          if fieldDefinition.inaccessible then acc
          else if (match getSchemaType ctx.schema fieldDefinition.ty with
                   | some returnType => returnType.inaccessible
                   | none => false) then acc
          else
            let service :=
              determineServiceForField fuel ctx fieldDefinition parentType currentService field
            let tagKeys := (assocGet parentType.keys currentService).bind List.head?
            if !fieldDefinition.tags.isEmpty && tagKeys.isSome then
              tagHandle acc field fieldDefinition
            else
              let providesGate :=
                match fieldDefinition.provides with
                | some provides =>
                  selectionSetSatisfiedByProvides fuel ctx.fragments field.name
                    field.selectionSet provides
                | none => false
              match fieldDefinition.provides, providesGate with
              | some provides, true =>
                providesHandle fuel ctx currentService acc parentType field
                  fieldDefinition provides
              | _, _ =>
                match fieldDefinition.requires with
                | some requiresK =>
                  if service = currentService then
                    requiresHandle acc field parentType currentService requiresK
                  else
                    handleServiceMismatch fuel ctx acc service parentType field fieldDefinition
                | none =>
                  if service ≠ currentService then
                    handleServiceMismatch fuel ctx acc service parentType field fieldDefinition
                  else
                    -- process_field_in_current_service
                    let acc := pushPath acc
                      { name := field.responseKey
                        isList := isListType fieldDefinition.ty
                        possibleType := none }
                    let inner :=
                      if !field.selectionSet.isEmpty then
                        match getSchemaType ctx.schema fieldDefinition.ty with
                        | some fieldType =>
                          if fieldType.kind == MTypeKind.interface ||
                              fieldType.kind == MTypeKind.union then
                            build fuel ctx currentService { acc with sel := [] }
                              (.bass fieldType field.selectionSet)
                          else
                            build fuel ctx currentService { acc with sel := [] }
                              (.bss fieldType field.selectionSet)
                        | none => { acc with sel := [] }
                      else { acc with sel := [] }
                    let acc :=
                      { inner with sel := acc.sel ++ [.fieldRef field inner.sel] }
                    popPath acc
    | .bss parentType items =>
      items.foldl
        (fun acc item =>
          match item with
          | .field f => build fuel ctx currentService acc (.bf parentType f)
          | .fragmentSpread n =>
            (match assocGet ctx.fragments n with
             | some fr => build fuel ctx currentService acc (.bss parentType fr.selectionSet)
             | none => acc)
          | .inlineFragment _ sel =>
            build fuel ctx currentService acc (.bss parentType sel))
        acc
    | .bass parentType items =>
      let saved := acc.absGroup
      let acc := { acc with absGroup := [] }
      let acc := build fuel ctx currentService acc (.babsTypes parentType.possibleTypes items)
      let frags :=
        (acc.absGroup.filter (fun p => !p.2.isEmpty)).map
          (fun p => SelectionRef.inlineFragment (some p.1) p.2)
      { acc with absGroup := saved, sel := acc.sel ++ frags }
    | .babsTypes possibleTypes items =>
      (match possibleTypes with
       | [] => acc
       | pt :: rest =>
         match assocGet ctx.schema.types pt with
         | some ty =>
           let acc := { acc with path := setLastPossibleType acc.path (some ty.name) }
           let acc := build fuel ctx currentService acc (.babsFields ty items)
           let acc := { acc with path := setLastPossibleType acc.path none }
           build fuel ctx currentService acc (.babsTypes rest items)
         | none => build fuel ctx currentService acc (.babsTypes rest items))
    | .babsFields possibleType items =>
      (match items with
       | [] => acc
       | item :: rest =>
         match item with
         | .field f =>
           let currentTy := possibleType.name
           let bucket := (assocGet acc.absGroup currentTy).getD []
           let inner :=
             build fuel ctx currentService { acc with sel := bucket } (.bf possibleType f)
           let acc :=
             { inner with
                 absGroup := assocPut inner.absGroup currentTy inner.sel
                 sel := acc.sel }
           build fuel ctx currentService acc (.babsFields possibleType rest)
         | .fragmentSpread n =>
           (match assocGet ctx.fragments n with
            | some fr =>
              if fr.typeCondition = possibleType.name then
                let acc := build fuel ctx currentService acc
                  (.babsFields possibleType fr.selectionSet)
                build fuel ctx currentService acc (.babsFields possibleType rest)
              else
                (match assocGet ctx.schema.types fr.typeCondition with
                 | none => acc
                 | some fieldType =>
                   if fieldType.kind == MTypeKind.interface ||
                       fieldType.kind == MTypeKind.union then
                     let acc := build fuel ctx currentService acc
                       (.babsFields possibleType fr.selectionSet)
                     build fuel ctx currentService acc (.babsFields possibleType rest)
                   else
                     build fuel ctx currentService acc (.babsFields possibleType rest))
            | none => build fuel ctx currentService acc (.babsFields possibleType rest))
         | .inlineFragment typeCondition sel =>
           (match typeCondition with
            | some cond =>
              if cond = possibleType.name then
                let acc := build fuel ctx currentService acc (.babsFields possibleType sel)
                build fuel ctx currentService acc (.babsFields possibleType rest)
              else
                build fuel ctx currentService acc (.babsFields possibleType rest)
            | none =>
              let acc := build fuel ctx currentService acc (.babsFields possibleType sel)
              build fuel ctx currentService acc (.babsFields possibleType rest)))

/-- `FieldResolver::build_field`. -/
def buildField (fuel : Nat) (ctx : PContext) (currentService : String) (acc : BAcc)
    (parentType : MetaType) (field : QField) : BAcc :=
  build fuel ctx currentService acc (.bf parentType field)

/-! ## The plan builder (`crates/planner/src/builder/plan_builder.rs`) -/

/-- Root fetch buckets: `QueryRootGroup` is a `BTreeMap` (buckets ordered
by service name), `MutationRootGroup` is a vector in first-use order
(`types.rs` lines 217-252).  Both are represented as association lists;
`isMutation` selects where `selection_set_mut` puts a fresh bucket. -/
abbrev RootGroupBuckets : Type := List (String × List SelectionRef)

def insertBucketSorted (service : String) : RootGroupBuckets → RootGroupBuckets
  | [] => [(service, [])]
  | (s, v) :: t =>
    if strLe service s then (service, []) :: (s, v) :: t
    else (s, v) :: insertBucketSorted service t

/-- `RootGroup::selection_set_mut`, bucket-creation part. -/
def ensureBucket (isMutation : Bool) (g : RootGroupBuckets) (service : String) :
    RootGroupBuckets :=
  if assocHas g service then g
  else if isMutation then g ++ [(service, [])]
  else insertBucketSorted service g

/-- `PlanBuilder::is_introspection_field` (lines 543-546). -/
def isIntrospectionField (name : String) : Bool :=
  name = "__type" || name = "__schema"

/-- `build_introspection_field`'s inner `build_selection_set`
(lines 469-493): collect fields, expanding fragments. -/
def buildIntroSelSet : Nat → PContext → List Selection → List IntrospectionField
  | 0, _, _ => []
  | fuel + 1, ctx, items =>
    items.foldl
      (fun acc item =>
        match item with
        | .field f =>
          acc ++ [.mk f.name f.alias (buildIntroSelSet fuel ctx f.selectionSet)]
        | .fragmentSpread n =>
          (match assocGet ctx.fragments n with
           | some fr => acc ++ buildIntroSelSet fuel ctx fr.selectionSet
           | none => acc)
        | .inlineFragment _ sel => acc ++ buildIntroSelSet fuel ctx sel)
      []

/-- `PlanBuilder::build_introspection_field` (lines 463-540), minus
argument conversion. -/
def buildIntrospectionField (fuel : Nat) (ctx : PContext) (f : QField) :
    IntrospectionField :=
  .mk f.name f.alias (buildIntroSelSet fuel ctx f.selectionSet)

/-- Accumulator of `build_root_selection_set`: the per-service buckets, the
resolver state and the introspection selection set. -/
structure RootAcc : Type where
  group : RootGroupBuckets
  st : BSt
  intro : List IntrospectionField

/-- `PlanBuilder::build_root_selection_set_rec` (lines 281-346): walk the
root selection set; an introspection field goes to the introspection
selection set; a field with a `service` attribution is built into that
service's bucket with a fresh response path; any other field is skipped;
fragments are expanded in place. -/
def buildRootSelectionSetRec :
    Nat → PContext → Bool → RootAcc → MetaType → List Selection → RootAcc
  | 0, _, _, acc, _, _ => acc
  | fuel + 1, ctx, isMutation, acc, parentType, items =>
    match items with
    | [] => acc
    | item :: rest =>
      let acc :=
        match item with
        | .field f =>
          (match assocGet parentType.fields f.name with
           | none => acc
           | some fieldDefinition =>
             if isIntrospectionField f.name then
               { acc with intro := acc.intro ++ [buildIntrospectionField fuel ctx f] }
             else
               match fieldDefinition.service with
               | some service =>
                 let g := ensureBucket isMutation acc.group service
                 let bucket := (assocGet g service).getD []
                 let bacc := build fuel ctx service
                   { st := acc.st, sel := bucket, absGroup := [], path := [] }
                   (.bf parentType f)
                 { acc with group := assocPut g service bacc.sel, st := bacc.st }
               | none => acc)
        | .fragmentSpread n =>
          (match assocGet ctx.fragments n with
           | some fr =>
             buildRootSelectionSetRec fuel ctx isMutation acc parentType fr.selectionSet
           | none => acc)
        | .inlineFragment _ sel =>
          buildRootSelectionSetRec fuel ctx isMutation acc parentType sel
      buildRootSelectionSetRec fuel ctx isMutation acc parentType rest

/-- The services of the plannable root fields, in source declaration order
with multiplicity: the fields `build_root_selection_set_rec` routes into a
bucket (a field definition exists, it is not an introspection field, and it
carries a `service` attribution), after expanding fragments.  Consumes fuel
exactly as `buildRootSelectionSetRec` does. -/
def expandedRootServices :
    Nat → PContext → MetaType → List Selection → List String
  | 0, _, _, _ => []
  | fuel + 1, ctx, parentType, items =>
    match items with
    | [] => []
    | item :: rest =>
      (match item with
       | .field f =>
         (match assocGet parentType.fields f.name with
          | none => []
          | some fieldDefinition =>
            if isIntrospectionField f.name then []
            else
              match fieldDefinition.service with
              | some service => [service]
              | none => [])
       | .fragmentSpread n =>
         (match assocGet ctx.fragments n with
          | some fr => expandedRootServices fuel ctx parentType fr.selectionSet
          | none => [])
       | .inlineFragment _ sel => expandedRootServices fuel ctx parentType sel)
      ++ expandedRootServices fuel ctx parentType rest

/-- First-occurrence deduplication step: the key order of a
`MutationRootGroup` (append at the end if new). -/
def insertNewKey (ks : List String) (s : String) : List String :=
  if strListHas ks s then ks else ks ++ [s]

/-- Sorted-insertion step: the key order of a `QueryRootGroup`
(`BTreeMap`). -/
def insertKeySorted (s : String) : List String → List String
  | [] => [s]
  | k :: t => if strLe s k then s :: k :: t else k :: insertKeySorted s t

/-- Key-order step of `RootGroup::selection_set_mut`, by group flavour. -/
def bucketKeyInsert (isMutation : Bool) (ks : List String) (s : String) : List String :=
  if strListHas ks s then ks
  else if isMutation then ks ++ [s]
  else insertKeySorted s ks

/-- The root fetch group of `build_root_selection_set` (lines 207-228): one
`Fetch` per bucket, grouped in a `Parallel` node for queries and a
`Sequence` node for mutations, then unwrapped if it has a single child. -/
def rootFetchGroupNode (operationType : OpType) (buckets : RootGroupBuckets) : PlanNode :=
  let nodes := buckets.map
    (fun p => PlanNode.fetch p.1
      { entityType := none, operationType := operationType, selectionSet := p.2 })
  if operationType == OpType.query then (PlanNode.parallel nodes).flattenOne
  else (PlanNode.sequence nodes).flattenOne

/-- The flatten rounds of `build_root_selection_set` (lines 231-275): as
long as the fetch-entity group is non-empty, re-run `build_field` for every
entity (with the entity's service as current service and its stored path,
which the calls may mutate), emit one `Flatten` per entity grouped in a
`Parallel` node, and continue with the entities produced by this round.
The fuel bounds the number of rounds. -/
def buildRounds : Nat → PContext → BSt → List PlanNode
  | 0, _, _ => []
  | fuel + 1, ctx, st =>
    if st.group.isEmpty then []
    else
      let folded :=
        st.group.foldl
          (fun acc entry =>
            let (keyId, nextGroup, nodes) := acc
            let (key, fe) := entry
            let bacc0 : BAcc :=
              { st := { keyId := keyId, group := nextGroup }
                sel := []
                absGroup := []
                path := key.path }
            let bacc := fe.fields.foldl
              (fun b f => build fuel ctx key.service b (.bf fe.parentType f)) bacc0
            let node := PlanNode.flatten bacc.path fe.prefixId key.service
              { entityType := some fe.parentType.name
                operationType := OpType.subscription
                selectionSet := bacc.sel }
            (bacc.st.keyId, bacc.st.group, nodes ++ [node]))
          (st.keyId, ([] : FetchEntityGroup), ([] : List PlanNode))
      let (keyId2, nextGroup, flattenNodes) := folded
      (PlanNode.parallel flattenNodes).flattenOne ::
        buildRounds fuel ctx { keyId := keyId2, group := nextGroup }

/-- `PlanBuilder::build_root_selection_set` (lines 175-278): introspection
node (when non-empty), root fetch group, flatten rounds, wrapped in a
`Sequence` and unwrapped when single. -/
def buildRootSelectionSet (fuel : Nat) (ctx : PContext) (operationType : OpType)
    (rootType : MetaType) (selectionSet : List Selection) : PlanNode :=
  let isMutation := operationType == OpType.mutation
  let racc := buildRootSelectionSetRec fuel ctx isMutation
    { group := [], st := { keyId := 1, group := [] }, intro := [] } rootType selectionSet
  let introNodes :=
    if racc.intro.isEmpty then [] else [PlanNode.introspection racc.intro]
  let fetchNode := rootFetchGroupNode operationType racc.group
  let nodes := introNodes ++ [fetchNode] ++ buildRounds fuel ctx racc.st
  (PlanNode.sequence nodes).flattenOne

/-- `PlanBuilder::plan` (lines 104-172) for queries and mutations, after
validation: pick the root type from the operation kind and build the root
selection set.  (Subscriptions go through `build_subscribe`, which no
verified claim concerns; validation is the separate `check_rules`.) -/
def planOperation (fuel : Nat) (ctx : PContext) (op : OperationDefinition) :
    Option PlanNode :=
  let rootTypeName :=
    match op.ty with
    | .query => some (ctx.schema.queryType.getD "Query")
    | .mutation => ctx.schema.mutationType
    | .subscription => none
  match rootTypeName with
  | none => none
  | some name =>
    match assocGet ctx.schema.types name with
    | some rootType => some (buildRootSelectionSet fuel ctx op.ty rootType op.selectionSet)
    | none => none

/-! ## Concrete instances

Named subgraph documents, schemas and operations used by the theorems
below as witnesses, counterexamples and failing inputs. -/

/-- A plain field definition (no description, no arguments). -/
def exField (n : String) (t : Ty) (ds : List ConstDirective := []) : FieldDefinition :=
  { description := none, name := n, arguments := [], ty := t, directives := ds }

/-- A plain object type definition. -/
def exObject (n : String) (fs : List FieldDefinition) (ds : List ConstDirective := [])
    (ext : Bool := false) : TypeSystemDefinition :=
  .typeDef
    { extend := ext, description := none, name := n, directives := ds, kind := .object [] fs }

/-- A plain scalar type definition. -/
def exScalar (n : String) (ds : List ConstDirective := []) : TypeSystemDefinition :=
  .typeDef { extend := false, description := none, name := n, directives := ds, kind := .scalar }

def exKeyDirective (fs : String) : ConstDirective :=
  { name := "key", arguments := [("fields", .strV fs)] }

def exProvidesDirective (fs : String) : ConstDirective :=
  { name := "provides", arguments := [("fields", .strV fs)] }

def exExternalDirective : ConstDirective := { name := "external", arguments := [] }

def tyInt : Ty := tyNamed "Int" true
def tyIdNN : Ty := tyNamed "ID" false
def tyStringNN : Ty := tyNamed "String" false

/-- Projection: the field names of a type in a composition result
(empty on error or when the type is absent). -/
def fieldNamesOf (r : Except CombineError ComposedSchema) (t : String) : List String :=
  match r with
  | .ok s =>
    (match assocGet s.types t with
     | some mt => assocKeys mt.fields
     | none => [])
  | .error _ => []

/-- Projection: the error of a composition result. -/
def errOf (r : Except CombineError ComposedSchema) : Option CombineError :=
  match r with
  | .ok _ => none
  | .error e => some e

/-- Projection: the `owner` of a type in a composition result. -/
def ownerOf (r : Except CombineError ComposedSchema) (t : String) : Option String :=
  match r with
  | .ok s =>
    (match assocGet s.types t with
     | some mt => mt.owner
     | none => none)
  | .error _ => none

/-- Top-level field names of a planner selection set. -/
def selRefTopFieldNames (sel : List SelectionRef) : List String :=
  sel.foldl
    (fun acc s =>
      match s with
      | .fieldRef f _ => acc ++ [f.name]
      | _ => acc)
    []

/-- All `Flatten` nodes of a plan, as (service, top-level selection field
names) pairs, in plan order. -/
def collectFlattens : Nat → PlanNode → List (String × List String)
  | 0, _ => []
  | fuel + 1, n =>
    match n with
    | .sequence ns => ns.foldl (fun acc m => acc ++ collectFlattens fuel m) []
    | .parallel ns => ns.foldl (fun acc m => acc ++ collectFlattens fuel m) []
    | .flatten _ _ svc q => [(svc, selRefTopFieldNames q.selectionSet)]
    | _ => []

/-- All `Fetch` services of a plan, in plan order. -/
def collectFetchServices : Nat → PlanNode → List String
  | 0, _ => []
  | fuel + 1, n =>
    match n with
    | .sequence ns => ns.foldl (fun acc m => acc ++ collectFetchServices fuel m) []
    | .parallel ns => ns.foldl (fun acc m => acc ++ collectFetchServices fuel m) []
    | .fetch svc _ => [svc]
    | _ => []

/-! ### C1: the `@provides` scenario

Three subgraphs in the style of the repository's review/user demo: the
`accounts` subgraph owns the `User` entity, the `users` subgraph extends it
with `username`, and the `reviews` subgraph's `Review.author` field carries
`@provides(fields: "username")`. -/

def c1AccountsDoc : ServiceDocument :=
  { definitions := [exObject "User" [exField "id" tyIdNN] [exKeyDirective "id"]] }

def c1ReviewsDoc : ServiceDocument :=
  { definitions :=
      [ exObject "Review" [exField "author" (tyNamed "User" false) [exProvidesDirective "username"]]
      , exObject "Query" [exField "reviews" (Ty.mk (.listTy (tyNamed "Review" false)) false)] ] }

def c1UsersDoc : ServiceDocument :=
  { definitions :=
      [ exObject "User"
          [exField "id" tyIdNN [exExternalDirective], exField "username" tyStringNN]
          [exKeyDirective "id"] true ] }

def c1Services : List (String × ServiceDocument) :=
  [("accounts", c1AccountsDoc), ("reviews", c1ReviewsDoc), ("users", c1UsersDoc)]

def c1Schema : ComposedSchema :=
  match combine c1Services with
  | .ok s => s
  | .error _ => {}

def c1Ctx : PContext := { schema := c1Schema, fragments := [] }

/-- The requested sub-selection Σ under the providing field:
`{ username }`. -/
def c1Sigma : List Selection := [.field (.mk none "username" [])]

/-- The operation `{ reviews { author { username } } }`. -/
def c1Query : OperationDefinition :=
  { ty := .query
    selectionSet := [.field (.mk none "reviews" [.field (.mk none "author" c1Sigma)])] }

def c1Plan : Option PlanNode := planOperation 30 c1Ctx c1Query

/-- The `@provides` field set of `Review.author` in the composed schema. -/
def c1AuthorProvides : KeyFields :=
  match (assocGet c1Schema.types "Review").bind (fun t => assocGet t.fields "author") with
  | some f => f.provides.getD (.mk .nil)
  | none => .mk .nil

/-! ### C2: mutation and query root grouping -/

def c2AaaDoc : ServiceDocument :=
  { definitions :=
      [ exObject "Query" [exField "qa" tyInt]
      , exObject "Mutation" [exField "doA" tyInt] ] }

def c2BbbDoc : ServiceDocument :=
  { definitions :=
      [ exObject "Query" [exField "qb" tyInt]
      , exObject "Mutation" [exField "doB" tyInt] ] }

def c2Schema : ComposedSchema :=
  match combine [("aaa", c2AaaDoc), ("bbb", c2BbbDoc)] with
  | .ok s => s
  | .error _ => {}

def c2Ctx : PContext := { schema := c2Schema, fragments := [] }

/-- `mutation { doB doA }`: `doB` lives in service `bbb`, `doA` in `aaa`,
declared in that order. -/
def c2MutationOp : OperationDefinition :=
  { ty := .mutation
    selectionSet := [.field (.mk none "doB" []), .field (.mk none "doA" [])] }

/-- `query { qb qa }`. -/
def c2QueryOp : OperationDefinition :=
  { ty := .query
    selectionSet := [.field (.mk none "qb" []), .field (.mk none "qa" [])] }

def c2MutationRootType : MetaType :=
  (assocGet c2Schema.types "Mutation").getD (emptyObjectType none "Mutation")

def c2QueryRootType : MetaType :=
  (assocGet c2Schema.types "Query").getD (emptyObjectType none "Query")

/-- The empty initial accumulator of `build_root_selection_set`. -/
def initRootAcc : RootAcc := { group := [], st := { keyId := 1, group := [] }, intro := [] }

/-! ### C3: determinism of `combine` -/

def c3DocX : ServiceDocument := { definitions := [exObject "T" [exField "x" tyInt]] }
def c3DocY : ServiceDocument := { definitions := [exObject "T" [exField "y" tyInt]] }

/-- Two permutations of a list carrying the *same* service name twice. -/
def c3Dup1 : List (String × ServiceDocument) := [("a", c3DocX), ("a", c3DocY)]
def c3Dup2 : List (String × ServiceDocument) := [("a", c3DocY), ("a", c3DocX)]

/-! ### C4: the recursion guards -/

def c4LoopField : MetaField :=
  { description := none, name := "x", arguments := [], ty := tyNamed "Loop" false
    deprecation := .noDeprecated, service := none, requires := none, provides := none }

def c4LoopType : MetaType :=
  { emptyObjectType none "Loop" with fields := [("x", c4LoopField)] }

def c4Schema : ComposedSchema := { types := [("Loop", c4LoopType)] }

def c4Seg : PathSegment := { name := "x", isList := false, possibleType := none }

/-- A response path that already contains the field name three times but
has length 3 ≤ `MIN_PATH_LENGTH_FOR_PATTERN_CHECK`. -/
def c4Path : ResponsePath := [c4Seg, c4Seg, c4Seg]

def c4Acc : BAcc := { st := { keyId := 1, group := [] }, sel := [], absGroup := [], path := c4Path }

def c4Out : BAcc :=
  buildField 10 { schema := c4Schema, fragments := [] } "svc" c4Acc c4LoopType (.mk none "x" [])

/-! ### C5: the `@link` directive -/

def c5LinkDirective : ConstDirective :=
  { name := "link"
    arguments :=
      [ ("url", .strV "https://specs.apollo.dev/federation/v2.3")
      , ("import", .listV (.cons (.strV "@key") (.cons (.strV "@shareable") .nil))) ] }

def c5LinkWithAs : ConstDirective :=
  { name := "link"
    arguments :=
      [ ("url", .strV "https://specs.apollo.dev/federation/v2.3")
      , ("as", .strV "fed")
      , ("import", .listV (.cons (.objV (.cons "name" (.strV "@key")
          (.cons "as" (.strV "@myKey") .nil))) .nil)) ] }

/-- A subgraph whose schema block carries the `@link` directive. -/
def c5LinkedDoc : ServiceDocument :=
  { definitions :=
      [ .schemaDef { query := none, mutation := none, subscription := none
                     directives := [c5LinkDirective] }
      , exObject "Query" [exField "x" tyInt] ] }

/-! ### C6: ownership conflicts -/

def c6Services : List (String × ServiceDocument) := [("a", c3DocX), ("b", c3DocY)]

/-- A scalar redefinition of a non-common scalar, the non-object shape that
does raise the ownership conflict. -/
def c6ScalarServices : List (String × ServiceDocument) :=
  [("a", { definitions := [exScalar "Foo"] }), ("b", { definitions := [exScalar "Foo"] })]

/-- A `MetaType` as accumulated after `a`'s definition of scalar `Foo`. -/
def c6FooAfterA : MetaType :=
  { convertTypeDefinition
      { extend := false, description := none, name := "Foo", directives := [], kind := .scalar }
    with owner := some "a" }

def c6FooTd : TypeDefinition :=
  { extend := false, description := none, name := "Foo", directives := [], kind := .scalar }

/-- A field-conflict input for the object branch: `T { x }` merged into an
accumulated `T` that already has a conflicting `x`. -/
def c6ConflictType : MetaType :=
  { emptyObjectType none "T" with
      owner := some "a"
      fields := [("x", convertFieldDefinition (exField "x" tyInt))] }

def c6ConflictTd : TypeDefinition :=
  { extend := false, description := none, name := "T", directives := []
    kind := .object [] [exField "x" tyStringNN] }

/-! ### C7: key validation -/

/-- The S5 seed case: a `@key(fields: "email")` with no `email` field. -/
def c7S5Doc : ServiceDocument :=
  { definitions :=
      [ exObject "User" [exField "id" tyIdNN, exField "name" tyStringNN] [exKeyDirective "email"]
      , exObject "Query" [exField "user" (tyNamed "User" true)] ] }

def c7S5Services : List (String × ServiceDocument) := [("users", c7S5Doc)]

def initCombineState : CombineState := { schema := initialCombineSchema, origDefs := [] }

/-- The merged state of the C1 scenario (whose composition succeeds). -/
def c1MergedState : CombineState :=
  match combineServices initCombineState (sortServices c1Services) with
  | .ok st => st
  | .error _ => initCombineState

/-- The key-validity property checked by `combine` after merging: for every
entity type, every service that declared keys for it, and every top-level
key field name, if the service's stored definition of the type is an object
definition then the name is one of its fields. -/
def KeysValidProp (types : List (String × MetaType)) (origDefs : OrigDefs) : Prop :=
  ∀ p ∈ types, p.2.isEntity = true →
    ∀ q ∈ p.2.keys, ∀ kf ∈ q.2, ∀ n ∈ kf.topNames,
      ∀ serviceTypes, assocGet origDefs p.1 = some serviceTypes →
        ∀ td, assocGet serviceTypes q.1 = some td →
          ∀ impl ofields, td.kind = TypeDefKind.object impl ofields →
            strListHas (ofields.map (fun f => f.name)) n = true

/-! ### C8: subscriptions -/

/-- A subscription whose effective root selection has zero fields: its only
selection is a spread of an undefined fragment. -/
def c8ZeroFieldsOp : OperationDefinition :=
  { ty := .subscription, selectionSet := [.fragmentSpread "Nope"] }

/-- `subscription { a b }`. -/
def c8TwoFieldsOp : OperationDefinition :=
  { ty := .subscription
    selectionSet := [.field (.mk none "a" []), .field (.mk none "b" [])] }

/-! ### C9: common scalars -/

def c9DateTimeTd : TypeDefinition :=
  { extend := false, description := none, name := "DateTime", directives := [], kind := .scalar }

/-- A `DateTime` scalar as accumulated after a first subgraph defined it. -/
def c9DateTimeAfterA : MetaType :=
  { convertTypeDefinition c9DateTimeTd with owner := some "a" }

def c9Types : List (String × MetaType) := [("DateTime", c9DateTimeAfterA)]

/-- Two subgraphs that both define the common scalar `DateTime` (neither
shareable). -/
def c9Services : List (String × ServiceDocument) :=
  [ ("a", { definitions := [exScalar "DateTime", exObject "Query" [exField "qa" tyInt]] })
  , ("b", { definitions := [exScalar "DateTime", exObject "Query" [exField "qb" tyInt]] }) ]

/-! ### C10: the special-cased `"id"` field -/

/-- The key field set `x`. -/
def kfX : KeyFields := .mk (.cons "x" (.mk .nil) .nil)

/-- An accumulated entity `E` owned by `a`, with fields `x`, `y` and the key
`x` declared by `a`. -/
def c10AccType : MetaType :=
  { emptyObjectType none "E" with
      owner := some "a"
      isEntity := true
      keys := [("a", [kfX])]
      fields :=
        [ ("x", convertFieldDefinition (exField "x" tyInt))
        , ("y", convertFieldDefinition (exField "y" tyInt)) ] }

/-- `b`'s later declaration of `E`: fields `x`, `id`, `w` under the key `x`.
The accumulated `y` is omitted (so the declaration is incomplete) and `id`
appears in no `@key` of the type. -/
def c10Fields : List FieldDefinition :=
  [exField "x" tyInt, exField "id" tyIdNN, exField "w" tyInt]

def c10Td : TypeDefinition :=
  { extend := false, description := none, name := "E"
    directives := [exKeyDirective "x"], kind := .object [] c10Fields }

/-! ### Further projections and instances -/

/-- The error of a fallible combine step, if any. -/
def exErr {α : Type} : Except CombineError α → Option CombineError
  | .error e => some e
  | .ok _ => none

/-- The federation `@link` summary of a composed schema. -/
def fedInfo (s : ComposedSchema) :
    Option String × Option String × List (String × String) :=
  (s.federationVersion, s.federationNamespace, s.directiveMapping)

/-- The successful composition of the `@link`-carrying subgraph. -/
def c5CombinedSchema : ComposedSchema :=
  match combine [("a", c5LinkedDoc)] with
  | .ok s => s
  | .error _ => initialCombineSchema

/-- Is the error a `ValueTypeOwnershipConflicted`? -/
def CombineError.isOwnershipConflict : CombineError → Bool
  | .valueTypeOwnershipConflicted _ _ _ => true
  | _ => false

/-- Is the error an `IncompleteEntityReference`? -/
def CombineError.isIncompleteRef : CombineError → Bool
  | .incompleteEntityReference _ _ _ => true
  | _ => false

/-- A path of 21 segments: longer than `MAX_PATH_LENGTH`. -/
def c4LongPath : ResponsePath := List.replicate 21 c4Seg

def c4LongAcc : BAcc :=
  { st := { keyId := 1, group := [] }, sel := [], absGroup := [], path := c4LongPath }

/-- A path of 5 segments all named `x`: long enough for the repetition
check, with more than `MAX_FIELD_REPETITIONS` repetitions. -/
def c4DeepPath : ResponsePath := List.replicate 5 c4Seg

def c4DeepAcc : BAcc :=
  { st := { keyId := 1, group := [] }, sel := [], absGroup := [], path := c4DeepPath }

/-- Top-level shape of a plan node. -/
def nodeKind : PlanNode → String
  | .sequence _ => "sequence"
  | .parallel _ => "parallel"
  | .fetch _ _ => "fetch"
  | .flatten _ _ _ _ => "flatten"
  | .introspection _ => "introspection"

/-- The merged state of the S5 scenario (the merge passes succeed; the key
validation is what fails). -/
def c7MergedState : CombineState :=
  match combineServices initCombineState (sortServices c7S5Services) with
  | .ok st => st
  | .error _ => initCombineState

/-! ## Theorems

### Generic helper lemmas -/

theorem strListHas_iff {l : List String} {s : String} :
    strListHas l s = true ↔ s ∈ l := by
  induction l with
  | nil => simp [strListHas]
  | cons x t ih =>
    simp only [strListHas, List.any_cons, Bool.or_eq_true, decide_eq_true_eq] at *
    constructor
    · rintro (h | h)
      · exact h ▸ List.mem_cons_self x t
      · exact List.mem_cons_of_mem x (ih.mp h)
    · intro h
      rcases List.mem_cons.mp h with h | h
      · exact Or.inl h.symm
      · exact Or.inr (ih.mpr h)

theorem strListHas_eq_false_iff {l : List String} {s : String} :
    strListHas l s = false ↔ s ∉ l := by
  rw [← Bool.not_eq_true, not_iff_not]
  exact strListHas_iff

theorem findSome_eq_none_iff {α β : Type} {f : α → Option β} :
    ∀ {l : List α}, l.findSome? f = none ↔ ∀ x ∈ l, f x = none := by
  intro l
  induction l with
  | nil => simp [List.findSome?]
  | cons x t ih =>
    simp only [List.findSome?]
    cases h : f x with
    | some b => simp [h]
    | none => simp [h, ih]

theorem findSome_eq_some {α β : Type} {f : α → Option β} {b : β} :
    ∀ {l : List α}, l.findSome? f = some b → ∃ x ∈ l, f x = some b := by
  intro l
  induction l with
  | nil => simp [List.findSome?]
  | cons x t ih =>
    simp only [List.findSome?]
    cases h : f x with
    | some c => intro hc; exact ⟨x, List.mem_cons_self x t, h.trans hc⟩
    | none =>
      intro hc
      obtain ⟨y, hy, hfy⟩ := ih hc
      exact ⟨y, List.mem_cons_of_mem x hy, hfy⟩

/-! ### The string order used to sort subgraphs -/

theorem char_eq_of_toNat_eq {a b : Char} (h : a.toNat = b.toNat) : a = b := by
  rw [← Char.ofNat_toNat a, h, Char.ofNat_toNat]

theorem charListLe_total (a b : List Char) :
    charListLe a b = true ∨ charListLe b a = true := by
  induction a generalizing b with
  | nil => left; rfl
  | cons x xs ih =>
    cases b with
    | nil => right; rfl
    | cons y ys =>
      by_cases h1 : x.toNat < y.toNat
      · left; simp [charListLe, h1]
      · by_cases h2 : y.toNat < x.toNat
        · right; simp [charListLe, h1, h2]
        · rcases ih ys with h | h
          · left; simp [charListLe, h1, h2, h]
          · right; simp [charListLe, h1, h2, h]

theorem charListLe_antisymm : ∀ {a b : List Char},
    charListLe a b = true → charListLe b a = true → a = b := by
  intro a
  induction a with
  | nil =>
    intro b h1 h2
    cases b with
    | nil => rfl
    | cons y ys => simp [charListLe] at h2
  | cons x xs ih =>
    intro b h1 h2
    cases b with
    | nil => simp [charListLe] at h1
    | cons y ys =>
      by_cases hx : x.toNat < y.toNat
      · simp [charListLe, hx, Nat.lt_asymm hx] at h2
      · by_cases hy : y.toNat < x.toNat
        · simp [charListLe, hx, hy] at h1
        · have hxy : x = y :=
            char_eq_of_toNat_eq (Nat.le_antisymm (Nat.not_lt.mp hy) (Nat.not_lt.mp hx))
          subst hxy
          simp only [charListLe, hx, if_neg hx, if_false] at h1 h2
          rw [ih h1 h2]

theorem charListLe_trans : ∀ {a b c : List Char},
    charListLe a b = true → charListLe b c = true → charListLe a c = true := by
  intro a
  induction a with
  | nil => intro b c _ _; rfl
  | cons x xs ih =>
    intro b c h1 h2
    cases b with
    | nil => simp [charListLe] at h1
    | cons y ys =>
      cases c with
      | nil => simp [charListLe] at h2
      | cons z zs =>
        simp only [charListLe] at h1 h2 ⊢
        by_cases hxy : x.toNat < y.toNat
        · simp only [hxy, if_true] at h1
          by_cases hyz : y.toNat < z.toNat
          · simp [Nat.lt_trans hxy hyz]
          · by_cases hzy : z.toNat < y.toNat
            · simp [hyz, hzy] at h2
            · have hxz : x.toNat < z.toNat := by omega
              simp [hxz]
        · by_cases hyx : y.toNat < x.toNat
          · simp [hxy, hyx] at h1
          · by_cases hyz : y.toNat < z.toNat
            · have hxz : x.toNat < z.toNat := by omega
              simp [hxz]
            · by_cases hzy : z.toNat < y.toNat
              · simp [hyz, hzy] at h2
              · have hxz : ¬ x.toNat < z.toNat := by omega
                have hzx : ¬ z.toNat < x.toNat := by omega
                simp only [hxy, hyx, if_neg, if_false] at h1
                simp only [hyz, hzy, if_neg, if_false] at h2
                simp [hxz, hzx, ih h1 h2]

theorem strLe_total (a b : String) : strLe a b = true ∨ strLe b a = true :=
  charListLe_total a.data b.data

theorem strLe_trans {a b c : String} (h1 : strLe a b = true) (h2 : strLe b c = true) :
    strLe a c = true :=
  charListLe_trans h1 h2

theorem strLe_antisymm {a b : String} (h1 : strLe a b = true) (h2 : strLe b a = true) :
    a = b := by
  have h := charListLe_antisymm h1 h2
  cases a; cases b
  exact congrArg String.mk h

/-! ### The stable sort of `combine` -/

/-- The pairwise order on keyed entries used below. -/
def keyedLe {α : Type} (a b : String × α) : Prop := strLe a.1 b.1 = true

theorem insertServiceSorted_perm {α : Type} (x : String × α) (l : List (String × α)) :
    (insertServiceSorted x l).Perm (x :: l) := by
  induction l with
  | nil => exact List.Perm.refl _
  | cons y t ih =>
    simp only [insertServiceSorted]
    by_cases h : strLe x.1 y.1 = true
    · simp [h]
    · simp only [h, if_false, Bool.false_eq_true]
      exact (ih.cons y).trans (List.Perm.swap x y t)

theorem sortServices_perm {α : Type} (l : List (String × α)) :
    (sortServices l).Perm l := by
  induction l with
  | nil => exact List.Perm.refl _
  | cons x t ih => exact (insertServiceSorted_perm x (sortServices t)).trans (ih.cons x)

theorem mem_insertServiceSorted {α : Type} {x y : String × α} {l : List (String × α)} :
    y ∈ insertServiceSorted x l ↔ y = x ∨ y ∈ l := by
  rw [(insertServiceSorted_perm x l).mem_iff]
  simp

theorem insertServiceSorted_pairwise {α : Type} {x : String × α} {l : List (String × α)}
    (hl : l.Pairwise keyedLe) : (insertServiceSorted x l).Pairwise keyedLe := by
  induction l with
  | nil => simp [insertServiceSorted, List.pairwise_cons]
  | cons y t ih =>
    rcases List.pairwise_cons.mp hl with ⟨hy, ht⟩
    simp only [insertServiceSorted]
    by_cases h : strLe x.1 y.1 = true
    · simp only [h, if_true]
      refine List.pairwise_cons.mpr ⟨?_, hl⟩
      intro z hz
      rcases List.mem_cons.mp hz with rfl | hz
      · exact h
      · exact strLe_trans h (hy z hz)
    · simp only [h, if_false, Bool.false_eq_true]
      have hyx : strLe y.1 x.1 = true := (strLe_total x.1 y.1).resolve_left h
      refine List.pairwise_cons.mpr ⟨?_, ih ht⟩
      intro z hz
      rcases mem_insertServiceSorted.mp hz with rfl | hz
      · exact hyx
      · exact hy z hz

theorem sortServices_pairwise {α : Type} (l : List (String × α)) :
    (sortServices l).Pairwise keyedLe := by
  induction l with
  | nil => simp [sortServices]
  | cons x t ih => exact insertServiceSorted_pairwise ih

theorem eq_of_perm_of_pairwise_of_nodupKeys {α : Type} :
    ∀ (l1 l2 : List (String × α)), l1.Perm l2 → l1.Pairwise keyedLe →
      l2.Pairwise keyedLe → (l1.map Prod.fst).Nodup → l1 = l2 := by
  intro l1
  induction l1 with
  | nil =>
    intro l2 hperm _ _ _
    exact (hperm.symm.eq_nil).symm
  | cons a t1 ih =>
    intro l2 hperm hp1 hp2 hnd
    cases l2 with
    | nil => exact absurd hperm.eq_nil (by simp)
    | cons b t2 =>
      by_cases hab : a = b
      · subst hab
        rcases List.pairwise_cons.mp hp1 with ⟨_, hp1t⟩
        rcases List.pairwise_cons.mp hp2 with ⟨_, hp2t⟩
        have hnd1 : (t1.map Prod.fst).Nodup := by
          rw [List.map_cons] at hnd
          exact (List.nodup_cons.mp hnd).2
        rw [ih t2 (hperm.cons_inv) hp1t hp2t hnd1]
      · exfalso
        have ha2 : a ∈ b :: t2 := hperm.mem_iff.mp (List.mem_cons_self a t1)
        have hat2 : a ∈ t2 := by
          rcases List.mem_cons.mp ha2 with h | h
          · exact absurd h hab
          · exact h
        have hb1 : b ∈ a :: t1 := hperm.symm.mem_iff.mp (List.mem_cons_self b t2)
        have hbt1 : b ∈ t1 := by
          rcases List.mem_cons.mp hb1 with h | h
          · exact absurd h.symm hab
          · exact h
        have hle1 : keyedLe a b := (List.pairwise_cons.mp hp1).1 b hbt1
        have hle2 : keyedLe b a := (List.pairwise_cons.mp hp2).1 a hat2
        have hkey : a.1 = b.1 := strLe_antisymm hle1 hle2
        have hnotin : a.1 ∉ t1.map Prod.fst := by
          rw [List.map_cons] at hnd
          exact (List.nodup_cons.mp hnd).1
        exact hnotin (hkey ▸ List.mem_map_of_mem Prod.fst hbt1)

theorem sortServices_eq_of_perm {α : Type} {l1 l2 : List (String × α)}
    (hperm : l1.Perm l2) (hnodup : (l1.map Prod.fst).Nodup) :
    sortServices l1 = sortServices l2 := by
  have hp : (sortServices l1).Perm (sortServices l2) :=
    (sortServices_perm l1).trans (hperm.trans (sortServices_perm l2).symm)
  have hnd : ((sortServices l1).map Prod.fst).Nodup :=
    (((sortServices_perm l1).map Prod.fst).symm).nodup hnodup
  exact eq_of_perm_of_pairwise_of_nodupKeys _ _ hp (sortServices_pairwise l1)
    (sortServices_pairwise l2) hnd

/-! ### C3: determinism of composition under input permutation -/

/-- C3 (corrected).  `combine` sorts its input stably by service name, so
for two permutations of a subgraph list whose service names are pairwise
distinct, the composed results are equal (the same type map in the same
order, hence the same type set, field orderings, owners and key lists). -/
theorem c3_combine_deterministic (l1 l2 : List (String × ServiceDocument))
    (hperm : l1.Perm l2) (hnodup : (l1.map Prod.fst).Nodup) :
    combine l1 = combine l2 := by
  unfold combine
  rw [sortServices_eq_of_perm hperm hnodup]

/-- Witness: the two orders of the (distinct-name) C6 example compose to
the same schema. -/
theorem c3_combine_deterministic_witness :
    combine [("a", c3DocX), ("b", c3DocY)] = combine [("b", c3DocY), ("a", c3DocX)] :=
  c3_combine_deterministic _ _ (List.Perm.swap _ _ _) (by decide)

/-- Counterexample to C3 as stated: with a duplicated service name, the two
orders of the same list compose to schemas whose `T` has its fields in a
different order — the stable sort keeps the duplicate entries in input
order. -/
theorem c3_counterexample :
    c3Dup1.Perm c3Dup2 ∧
    fieldNamesOf (combine c3Dup1) "T" = ["x", "y"] ∧
    fieldNamesOf (combine c3Dup2) "T" = ["y", "x"] ∧
    combine c3Dup1 ≠ combine c3Dup2 := by
  refine ⟨List.Perm.swap _ _ _, by decide, by decide, fun h => ?_⟩
  have h2 : fieldNamesOf (combine c3Dup1) "T" = fieldNamesOf (combine c3Dup2) "T" := by rw [h]
  have e1 : fieldNamesOf (combine c3Dup1) "T" = ["x", "y"] := by decide
  have e2 : fieldNamesOf (combine c3Dup2) "T" = ["y", "x"] := by decide
  rw [e1, e2] at h2
  exact absurd h2 (by decide)

/-! ### C5: the `@link` directive and `combine`

The second-pass processors only ever touch the `types` member of the schema
under construction, so the federation `@link` summary
(`federation_version`, `federation_namespace`, `directive_mapping`) is
whatever the seed schema carried. -/

theorem processDefinition_fedInfo {service : String} {st st' : CombineState}
    {d : TypeSystemDefinition} (h : processDefinition service st d = .ok st') :
    fedInfo st'.schema = fedInfo st.schema := by
  cases d with
  | typeDef td =>
    simp only [processDefinition] at h
    split at h <;> split at h <;> first | (cases h; rfl) | cases h
  | schemaDef sd => cases h; rfl
  | directiveDef n => cases h; rfl

theorem processDefinitions_fedInfo {service : String} {ds : List TypeSystemDefinition}
    {st st' : CombineState} (h : processDefinitions service st ds = .ok st') :
    fedInfo st'.schema = fedInfo st.schema := by
  induction ds generalizing st with
  | nil => cases h; rfl
  | cons d rest ih =>
    unfold processDefinitions at h
    split at h
    · next st2 heq => exact (ih h).trans (processDefinition_fedInfo heq)
    · cases h

theorem combineService_fedInfo {st st' : CombineState} {entry : String × ServiceDocument}
    (h : combineService st entry = .ok st') : fedInfo st'.schema = fedInfo st.schema := by
  obtain ⟨service, doc⟩ := entry
  simp only [combineService] at h
  have := processDefinitions_fedInfo h
  exact this

theorem combineServices_fedInfo {l : List (String × ServiceDocument)}
    {st st' : CombineState} (h : combineServices st l = .ok st') :
    fedInfo st'.schema = fedInfo st.schema := by
  induction l generalizing st with
  | nil => cases h; rfl
  | cons e rest ih =>
    unfold combineServices at h
    split at h
    · next st2 heq => exact (ih h).trans (combineService_fedInfo heq)
    · cases h

theorem dropEmptyRoots_fedInfo (s : ComposedSchema) :
    fedInfo (dropEmptyRoots s) = fedInfo s := by
  simp only [dropEmptyRoots]
  repeat' split
  all_goals rfl

theorem finishSchema_fedInfo (s : ComposedSchema) :
    fedInfo (finishSchema s) = fedInfo s := rfl

/-- C5 (corrected).  `combine` never reads the `@link` directive: it skips
`TypeSystemDefinition::Schema` entries entirely, so the composed schema's
`federation_version`, `federation_namespace` and `directive_mapping` keep
their defaults (`None`, `None`, empty) for every input.  The population
described by the claim is implemented in `process_link_directive`, but that
function is reached only from `ComposedSchema::new`/
`convert_schema_definition`, never from `combine`; on the claim's inputs it
would yield version `2.3`, the default namespace `federation__` (or
`fed__` under `as: "fed"`) and the import/rename mapping. -/
theorem c5_link_directive_ignored_by_combine :
    (∀ (services : List (String × ServiceDocument)) (s : ComposedSchema),
        combine services = .ok s →
        s.federationVersion = none ∧ s.federationNamespace = none ∧
          s.directiveMapping = []) ∧
    fedInfo (processLinkDirective initialCombineSchema c5LinkDirective) =
      (some "2.3", some "federation__", [("key", "key"), ("shareable", "shareable")]) ∧
    fedInfo (processLinkDirective initialCombineSchema c5LinkWithAs) =
      (some "2.3", some "fed__", [("myKey", "key")]) := by
  refine ⟨?_, by decide, by decide⟩
  intro services s h
  simp only [combine] at h
  split at h
  · cases h
  · next st heq =>
    split at h
    · cases h
    · cases h
      have hfed : fedInfo (finishSchema (dropEmptyRoots st.schema)) = (none, none, []) := by
        rw [finishSchema_fedInfo, dropEmptyRoots_fedInfo, combineServices_fedInfo heq]
        rfl
      exact ⟨congrArg (fun p => p.1) hfed, congrArg (fun p => p.2.1) hfed,
        congrArg (fun p => p.2.2) hfed⟩

/-- Witness: the `@link`-carrying subgraph composes successfully and the
theorem yields defaults for its composed schema. -/
theorem c5_link_directive_ignored_by_combine_witness :
    combine [("a", c5LinkedDoc)] = .ok c5CombinedSchema ∧
      (c5CombinedSchema.federationVersion = none ∧
        c5CombinedSchema.federationNamespace = none ∧
        c5CombinedSchema.directiveMapping = []) :=
  ⟨rfl, c5_link_directive_ignored_by_combine.1 [("a", c5LinkedDoc)] c5CombinedSchema rfl⟩

/-- Counterexample to C5 as stated: the subgraph's schema block carries a
full federation `@link` (URL with version, imports), yet the schema
composed by `combine` has no federation version, no namespace and an empty
directive mapping. -/
theorem c5_counterexample :
    getArgumentStr c5LinkDirective.arguments "url" =
        some "https://specs.apollo.dev/federation/v2.3" ∧
    (combine [("a", c5LinkedDoc)]).toOption.map fedInfo = some (none, none, []) := by
  exact ⟨by decide, by decide⟩

/-! ### C6/C10: error classification of the object-type merge

`processObjectType` can fail only inside the entity-completeness check
(an `IncompleteEntityReference`) or inside the field merge (field or
argument conflicts); in particular it never raises
`ValueTypeOwnershipConflicted`, and only the completeness check raises
`IncompleteEntityReference`. -/

theorem entityCompletenessError_shape {typeName service : String}
    {current orig keyNames : List String} {accEmpty : Bool} {e : CombineError}
    (h : entityCompletenessError typeName service current orig keyNames accEmpty = some e) :
    e = .incompleteEntityReference typeName service
      (missingNonKeyFields (orig.filter (fun f => !strListHas current f)) keyNames) := by
  simp only [entityCompletenessError] at h
  split at h
  · split at h
    · split at h
      · injection h with h; exact h.symm
      · cases h
    · cases h
  · cases h

theorem checkFieldArguments_mergeClass {typeName fieldName service : String}
    {sh : Bool} {ef nf : MetaField} {e : CombineError}
    (h : checkFieldArguments typeName fieldName service sh ef nf = .error e) :
    e.isOwnershipConflict = false ∧ e.isIncompleteRef = false := by
  simp only [checkFieldArguments] at h
  split at h
  · split at h
    · next e0 heq =>
      cases h
      split at heq
      · cases heq
      · split at heq
        · injection heq with heq; subst heq; exact ⟨rfl, rfl⟩
        · cases heq
      · split at heq
        · injection heq with heq; subst heq; exact ⟨rfl, rfl⟩
        · cases heq
    · split at h
      · next e0 heq =>
        cases h
        split at heq
        · cases heq
        · split at heq
          · injection heq with heq; subst heq; exact ⟨rfl, rfl⟩
          · cases heq
        · split at heq
          · injection heq with heq; subst heq; exact ⟨rfl, rfl⟩
          · cases heq
      · split at h
        · injection h with h; subst h; exact ⟨rfl, rfl⟩
        · cases h
  · cases h

theorem mergeObjectField_mergeClass {service typeName : String}
    {isExtend tsh : Bool} {allFields : List FieldDefinition} {mt : MetaType}
    {f : FieldDefinition} {e : CombineError}
    (h : mergeObjectField service typeName isExtend tsh allFields mt f = .error e) :
    e.isOwnershipConflict = false ∧ e.isIncompleteRef = false := by
  simp only [mergeObjectField] at h
  split at h
  · split at h
    · split at h
      · injection h with h; subst h; exact ⟨rfl, rfl⟩
      · cases h
    · cases h
  · split at h
    · split at h
      · next heq => cases h; exact checkFieldArguments_mergeClass heq
      · split at h
        · split at h
          · injection h with h; subst h; exact ⟨rfl, rfl⟩
          · injection h with h; subst h; exact ⟨rfl, rfl⟩
        · cases h
    · cases h

theorem mergeObjectFields_mergeClass {service typeName : String}
    {isExtend tsh : Bool} {allFields : List FieldDefinition} {fs : List FieldDefinition}
    {mt : MetaType} {e : CombineError}
    (h : mergeObjectFields service typeName isExtend tsh allFields mt fs = .error e) :
    e.isOwnershipConflict = false ∧ e.isIncompleteRef = false := by
  induction fs generalizing mt with
  | nil => cases h
  | cons f rest ih =>
    simp only [mergeObjectFields] at h
    split at h
    · exact ih h
    · next heq => cases h; exact mergeObjectField_mergeClass heq

/-- `"id"` is filtered out of the missing-non-key-field set. -/
theorem missingNonKeyFields_no_id (missing keyNames : List String) :
    strListHas (missingNonKeyFields missing keyNames) "id" = false := by
  rw [strListHas_eq_false_iff]
  intro hmem
  have := List.of_mem_filter hmem
  simp at this

theorem objectCompleteness_shape {origDefs : OrigDefs} {service : String}
    {tsh : Bool} {mt2 : MetaType} {fields : List FieldDefinition}
    {e : CombineError}
    (h : objectCompleteness origDefs service tsh mt2 fields = some e) :
    e = .incompleteEntityReference mt2.name service
      (missingNonKeyFields
        ((assocKeys mt2.fields).filter
          (fun f => !strListHas (fields.map (fun fd => fd.name)) f))
        (allKeyFieldNames mt2.keys)) := by
  simp only [objectCompleteness] at h
  split at h
  · split at h
    · exact entityCompletenessError_shape h
    · cases h
  · cases h

theorem processObjectTypeTail_errorClass {origDefs : OrigDefs}
    {types0 : List (String × MetaType)} {service name : String}
    {isExtend tsh : Bool} {impl : List String} {fs : List FieldDefinition}
    {mt2 : MetaType} {e : CombineError}
    (h : processObjectTypeTail origDefs types0 service name isExtend tsh impl fs mt2 =
      .error e) :
    e.isOwnershipConflict = false ∧
      (∀ t sv missing, e = .incompleteEntityReference t sv missing →
        strListHas missing "id" = false) := by
  simp only [processObjectTypeTail] at h
  split at h
  · next e0 heq =>
    cases h
    have hs := objectCompleteness_shape heq
    subst hs
    refine ⟨rfl, ?_⟩
    intro t sv missing hmiss
    injection hmiss with h1 h2 h3
    subst h3
    exact missingNonKeyFields_no_id _ _
  · split at h
    · cases h
    · next heq =>
      cases h
      have hc := mergeObjectFields_mergeClass heq
      refine ⟨hc.1, ?_⟩
      intro t sv missing hmiss
      subst hmiss
      exact absurd hc.2 (by simp [CombineError.isIncompleteRef])

theorem processObjectType_errorClass {origDefs : OrigDefs}
    {types : List (String × MetaType)} {service : String} {td : TypeDefinition}
    {impl : List String} {fs : List FieldDefinition} {e : CombineError}
    (h : processObjectType origDefs types service td impl fs = .error e) :
    e.isOwnershipConflict = false ∧
      (∀ t sv missing, e = .incompleteEntityReference t sv missing →
        strListHas missing "id" = false) := by
  simp only [processObjectType] at h
  exact processObjectTypeTail_errorClass h

/-! ### C6: value-type ownership conflicts -/

/-- C6 (corrected).  The `ValueTypeOwnershipConflicted` error exists, but it
is raised only by the non-object branch of `combine`: a later unshareable
redefinition of an owned non-object type (outside the common-scalar escape)
fails with the type name, the owning service and the current service.  The
object branch never raises it — a fresh object entry starts with no owner
and `already_shareable = owner.is_none()` then keeps the owner `None`
forever, so two subgraphs may redefine a non-shareable non-entity object
type freely: the concrete two-service object example merges both field sets
with no owner and no error. -/
theorem c6_value_type_ownership :
    (∀ (types : List (String × MetaType)) (service : String) (td : TypeDefinition)
        (mt2 : MetaType) (ownerService : String),
        assocGet types (convertTypeDefinition td).name = some mt2 →
        mt2.owner = some ownerService →
        hasDirective td.directives "shareable" = false →
        mt2.isEntity = false →
        strListHas commonScalarTypes (convertTypeDefinition td).name = false →
        processNonObjectType types service td =
          .error (.valueTypeOwnershipConflicted (convertTypeDefinition td).name
            ownerService service)) ∧
    (∀ (origDefs : OrigDefs) (types : List (String × MetaType)) (service : String)
        (td : TypeDefinition) (impl : List String) (fs : List FieldDefinition)
        (e : CombineError),
        processObjectType origDefs types service td impl fs = .error e →
        e.isOwnershipConflict = false) ∧
    errOf (combine c6Services) = none ∧
    ownerOf (combine c6Services) "T" = none ∧
    fieldNamesOf (combine c6Services) "T" = ["x", "y"] := by
  refine ⟨?_, ?_, by decide, by decide, by decide⟩
  · intro types service td mt2 ownerService hget hown hsh hent hcs
    simp only [processNonObjectType, hget, hsh, hown, hent, hcs]
    simp
  · intro origDefs types service td impl fs e h
    exact (processObjectType_errorClass h).1

/-- Witness: the scalar `Foo`, owned by `a`, redefined unshareably by `b`,
conflicts; and the object-branch error of the concrete field conflict is
not an ownership conflict. -/
theorem c6_value_type_ownership_witness :
    processNonObjectType [("Foo", c6FooAfterA)] "b" c6FooTd =
      .error (.valueTypeOwnershipConflicted "Foo" "a" "b") ∧
    CombineError.isOwnershipConflict (.fieldTypeConflicted "T" "x" "Int" "String!") = false :=
  ⟨c6_value_type_ownership.1 [("Foo", c6FooAfterA)] "b" c6FooTd c6FooAfterA "a"
      rfl rfl rfl rfl (by decide),
   c6_value_type_ownership.2.1 [] [("T", c6ConflictType)] "b" c6ConflictTd []
      [exField "x" tyStringNN] (.fieldTypeConflicted "T" "x" "Int" "String!") rfl⟩

/-- Counterexample to C6 as stated: two subgraphs define the same
non-shareable non-entity *object* type with different fields, and
composition succeeds (fields merged, no owner) — while the same shape as a
(non-common) scalar does conflict. -/
theorem c6_counterexample :
    errOf (combine c6Services) = none ∧
    errOf (combine c6ScalarServices) =
      some (.valueTypeOwnershipConflicted "Foo" "a" "b") := by
  exact ⟨by decide, by decide⟩

/-! ### C10: the `"id"` exemption of the entity-completeness check -/

/-- C10 (confirmed).  The completeness check never faults a declaration
over the field `"id"`: `"id"` is filtered out of the missing-field set, a
declaration whose fields are all key fields or `"id"` is treated as a pure
key-only reference (no error), and an `IncompleteEntityReference` raised by
`processObjectType` never lists `"id"` among the missing fields. -/
theorem c10_id_exemption :
    (∀ (missing keyNames : List String),
        strListHas (missingNonKeyFields missing keyNames) "id" = false) ∧
    (∀ (typeName service : String) (current orig keyNames : List String)
        (accEmpty : Bool),
        (∀ f ∈ current, strListHas keyNames f = true ∨ f = "id") →
        entityCompletenessError typeName service current orig keyNames accEmpty = none) ∧
    (∀ (origDefs : OrigDefs) (types : List (String × MetaType)) (service : String)
        (td : TypeDefinition) (impl : List String) (fs : List FieldDefinition)
        (t sv : String) (missing : List String),
        processObjectType origDefs types service td impl fs =
          .error (.incompleteEntityReference t sv missing) →
        strListHas missing "id" = false) := by
  refine ⟨missingNonKeyFields_no_id, ?_, ?_⟩
  · intro typeName service current orig keyNames accEmpty hcur
    have hall : current.all (fun f => strListHas keyNames f || f = "id") = true := by
      rw [List.all_eq_true]
      intro f hf
      rcases hcur f hf with h | h
      · simp [h]
      · simp [h]
    simp only [entityCompletenessError, hall]
    split
    · split
      · simp
      · rfl
    · rfl
  · intro origDefs types service td impl fs t sv missing h
    exact (processObjectType_errorClass h).2 t sv missing rfl

/-- Witness: the concrete incomplete declaration of `E` errors with missing
fields `["y"]` — never `"id"`, though `b` redeclares `id` outside any key —
and a declaration of only key fields and `id` passes the completeness
check. -/
theorem c10_id_exemption_witness :
    strListHas ["y"] "id" = false ∧
    entityCompletenessError "E" "b" ["x", "id"] ["x", "y"] ["x"] false = none :=
  ⟨c10_id_exemption.2.2 [] [("E", c10AccType)] "b" c10Td [] c10Fields "E" "b" ["y"] rfl,
   c10_id_exemption.2.1 "E" "b" ["x", "id"] ["x", "y"] ["x"] false (by decide)⟩

/-! ### C7: key validation after the merge -/

theorem keyValidationError_none_iff {types : List (String × MetaType)}
    {origDefs : OrigDefs} :
    keyValidationError types origDefs = none ↔ KeysValidProp types origDefs := by
  unfold keyValidationError KeysValidProp
  rw [findSome_eq_none_iff]
  constructor
  · intro h p hp hent q hq kf hkf n hn serviceTypes hst td htd impl ofields hkind
    obtain ⟨typeName, mt⟩ := p
    obtain ⟨service, kfvec⟩ := q
    simp only at hent hst htd ⊢
    have h1 := h _ hp
    simp only [hent, if_true] at h1
    rw [findSome_eq_none_iff] at h1
    have h2 := h1 _ hq
    simp only [hst, htd, hkind] at h2
    rw [findSome_eq_none_iff] at h2
    have h3 := h2 _ hkf
    rw [findSome_eq_none_iff] at h3
    have h4 := h3 _ hn
    by_cases hf : strListHas (ofields.map (fun f => f.name)) n = true
    · exact hf
    · exfalso
      rw [Bool.not_eq_true] at hf
      rw [hf] at h4
      simp at h4
  · intro h p hp
    obtain ⟨typeName, mt⟩ := p
    simp only
    by_cases hent : mt.isEntity = true
    · rw [if_pos hent, findSome_eq_none_iff]
      intro q hq
      obtain ⟨service, kfvec⟩ := q
      simp only
      cases hst : assocGet origDefs typeName with
      | none => rfl
      | some serviceTypes =>
        dsimp only
        cases htd : assocGet serviceTypes service with
        | none => rfl
        | some td =>
          dsimp only
          cases hkind : td.kind with
          | scalar => rfl
          | interface impl fs => rfl
          | union ms => rfl
          | enum vs => rfl
          | inputObject fs => rfl
          | object impl ofields =>
            dsimp only
            rw [findSome_eq_none_iff]
            intro kf hkf
            rw [findSome_eq_none_iff]
            intro n hn
            have hval := h (typeName, mt) hp hent (service, kfvec) hq kf hkf n hn
              serviceTypes hst td htd impl ofields hkind
            rw [hval]
            simp
    · rw [if_neg hent]

theorem keyValidationError_shape {types : List (String × MetaType)}
    {origDefs : OrigDefs} {e : CombineError}
    (h : keyValidationError types origDefs = some e) :
    ∃ t f s, e = .keyFieldsMissing t f s := by
  unfold keyValidationError at h
  obtain ⟨p, hp, h1⟩ := findSome_eq_some h
  obtain ⟨typeName, mt⟩ := p
  dsimp only at h1
  split at h1
  · obtain ⟨q, hq, h2⟩ := findSome_eq_some h1
    obtain ⟨service, kfvec⟩ := q
    dsimp only at h2
    split at h2
    · split at h2
      · split at h2
        · obtain ⟨kf, hkf, h3⟩ := findSome_eq_some h2
          obtain ⟨n, hn, h4⟩ := findSome_eq_some h3
          split at h4
          · injection h4 with h4; exact ⟨_, _, _, h4.symm⟩
          · cases h4
        · cases h2
      · cases h2
    · cases h2
  · cases h1

/-- C7 (confirmed).  After the merge of all subgraphs succeeds, `combine`
stands or falls with the key validation: it returns the composed schema iff
every top-level name of every `@key` declared by a service resolves to a
field of that service's stored object definition of the type, and otherwise
returns exactly the first `KeyFieldsMissing` error (type name, missing
field, declaring service). -/
theorem c7_key_validation (services : List (String × ServiceDocument))
    (st : CombineState)
    (h : combineServices initCombineState (sortServices services) = .ok st) :
    (keyValidationError (dropEmptyRoots st.schema).types st.origDefs = none ↔
       KeysValidProp (dropEmptyRoots st.schema).types st.origDefs) ∧
    (∀ e, keyValidationError (dropEmptyRoots st.schema).types st.origDefs = some e →
       combine services = .error e ∧ ∃ t f sv, e = .keyFieldsMissing t f sv) ∧
    (keyValidationError (dropEmptyRoots st.schema).types st.origDefs = none →
       combine services = .ok (finishSchema (dropEmptyRoots st.schema))) := by
  unfold initCombineState at h
  refine ⟨keyValidationError_none_iff, ?_, ?_⟩
  · intro e he
    refine ⟨?_, keyValidationError_shape he⟩
    simp only [combine, h, he]
  · intro hnone
    simp only [combine, h, hnone]

/-- Witness: in the S5 scenario (`@key(fields: "email")` with no `email`
field) the merge succeeds and `combine` returns exactly the
`KeyFieldsMissing` error. -/
theorem c7_key_validation_witness :
    combine c7S5Services = .error (.keyFieldsMissing "User" "email" "users") ∧
    ∃ t f sv, (CombineError.keyFieldsMissing "User" "email" "users") =
      CombineError.keyFieldsMissing t f sv :=
  (c7_key_validation c7S5Services c7MergedState rfl).2.1
    (.keyFieldsMissing "User" "email" "users") (by decide)

/-! ### C9: well-known cross-ecosystem scalars -/

/-- C9 (confirmed).  When a later subgraph redefines a scalar whose name is
one of the `COMMON_SCALAR_TYPES` and the accumulated type is also a scalar,
`processNonObjectType` returns the type map unchanged — the first
definition is kept, the later one is ignored, and no error is raised
(regardless of ownership or shareability).  Concretely, two subgraphs that
both define `DateTime` compose with no error and `a`'s definition (and
ownership) kept. -/
theorem c9_common_scalars :
    (∀ (types : List (String × MetaType)) (service : String) (td : TypeDefinition)
        (mt2 : MetaType),
        assocGet types (convertTypeDefinition td).name = some mt2 →
        (convertTypeDefinition td).kind = MTypeKind.scalar →
        mt2.kind = MTypeKind.scalar →
        strListHas commonScalarTypes (convertTypeDefinition td).name = true →
        processNonObjectType types service td = .ok types) ∧
    errOf (combine c9Services) = none ∧
    ownerOf (combine c9Services) "DateTime" = some "a" := by
  refine ⟨?_, by decide, by decide⟩
  intro types service td mt2 hget hk1 hk2 hcs
  simp only [processNonObjectType, hget, hk1, hk2, hcs]
  simp

/-- Witness: `b`'s redefinition of the already-present `DateTime` scalar is
ignored without error. -/
theorem c9_common_scalars_witness :
    processNonObjectType c9Types "b" c9DateTimeTd = .ok c9Types :=
  c9_common_scalars.1 c9Types "b" c9DateTimeTd c9DateTimeAfterA rfl rfl rfl (by decide)

/-! ### C8: single-field subscriptions -/

/-- C8 (corrected).  The validator reports an error for an operation iff it
is a subscription whose effective root selection, after fragment expansion,
has *more than one* field — an effective root of zero fields is accepted,
so the claimed "exactly one" rejection holds only on the upper side. -/
theorem c8_single_field_subscriptions (fuel : Nat)
    (fragments : List (String × FragmentDefinition)) (op : OperationDefinition) :
    singleFieldSubscriptionsErrors fuel fragments op ≠ [] ↔
      op.ty = OpType.subscription ∧
        countFields fuel fragments op.selectionSet > 1 := by
  constructor
  · intro h
    by_cases ht : op.ty = OpType.subscription
    · refine ⟨ht, ?_⟩
      by_cases hc : countFields fuel fragments op.selectionSet > 1
      · exact hc
      · exact absurd (by simp [singleFieldSubscriptionsErrors, ht, hc]) h
    · exact absurd (by simp [singleFieldSubscriptionsErrors, ht]) h
  · rintro ⟨ht, hc⟩
    simp [singleFieldSubscriptionsErrors, ht, hc]

/-- Witness: `subscription { a b }` is rejected. -/
theorem c8_single_field_subscriptions_witness :
    singleFieldSubscriptionsErrors 10 [] c8TwoFieldsOp ≠ [] :=
  (c8_single_field_subscriptions 10 [] c8TwoFieldsOp).mpr (by decide)

/-- Counterexample to C8 as stated: a subscription whose effective root has
zero fields (its only selection spreads an undefined fragment) passes the
validator, though zero is not exactly one. -/
theorem c8_counterexample :
    c8ZeroFieldsOp.ty = OpType.subscription ∧
    countFields 10 [] c8ZeroFieldsOp.selectionSet = 0 ∧
    singleFieldSubscriptionsErrors 10 [] c8ZeroFieldsOp = [] := by
  exact ⟨rfl, by decide, by decide⟩

/-! ### C4: recursion guards of the field resolver -/

/-- C4 (corrected).  `build_field` abandons its branch when the response
path is longer than `MAX_PATH_LENGTH = 20` and when
`should_skip_due_to_recursion` fires; but the repetition guard fires only
when the path is also longer than `MIN_PATH_LENGTH_FOR_PATTERN_CHECK = 4` —
more than two repetitions alone, on a path of length at most 4, do not
abandon the branch. -/
theorem c4_recursion_guards :
    (∀ (fuel : Nat) (ctx : PContext) (service : String) (acc : BAcc)
        (parentType : MetaType) (field : QField),
        acc.path.length > MAX_PATH_LENGTH →
        build fuel ctx service acc (.bf parentType field) = acc) ∧
    (∀ (fuel : Nat) (ctx : PContext) (service : String) (acc : BAcc)
        (parentType : MetaType) (field : QField),
        shouldSkipDueToRecursion acc.path field = true →
        build fuel ctx service acc (.bf parentType field) = acc) ∧
    (∀ (path : ResponsePath) (field : QField),
        shouldSkipDueToRecursion path field = true ↔
          path.length > MIN_PATH_LENGTH_FOR_PATTERN_CHECK ∧
            (path.filter (fun seg => seg.name = field.name)).length >
              MAX_FIELD_REPETITIONS) := by
  refine ⟨?_, ?_, ?_⟩
  · intro fuel ctx service acc parentType field h
    cases fuel with
    | zero => rfl
    | succ n =>
      simp only [build]
      rw [if_pos h]
  · intro fuel ctx service acc parentType field h
    cases fuel with
    | zero => rfl
    | succ n =>
      simp only [build]
      by_cases hl : acc.path.length > MAX_PATH_LENGTH
      · rw [if_pos hl]
      · rw [if_neg hl, if_pos h]
  · intro path field
    simp [shouldSkipDueToRecursion]

/-- Witness: a path of 21 segments is abandoned by the length guard, and a
path of five `x` segments is abandoned by the repetition guard. -/
theorem c4_recursion_guards_witness :
    build 10 { schema := c4Schema, fragments := [] } "svc" c4LongAcc
        (.bf c4LoopType (.mk none "x" [])) = c4LongAcc ∧
    build 10 { schema := c4Schema, fragments := [] } "svc" c4DeepAcc
        (.bf c4LoopType (.mk none "x" [])) = c4DeepAcc :=
  ⟨c4_recursion_guards.1 10 { schema := c4Schema, fragments := [] } "svc" c4LongAcc
      c4LoopType (.mk none "x" []) (by decide),
   c4_recursion_guards.2.1 10 { schema := c4Schema, fragments := [] } "svc" c4DeepAcc
      c4LoopType (.mk none "x" []) (by decide)⟩

/-- Counterexample to C4 as stated: on a path of three `x` segments the
field `x` repeats more than `MAX_FIELD_REPETITIONS = 2` times and the path
is within `MAX_PATH_LENGTH`, yet `build_field` does not abandon the branch
— it appends the field to the selection set. -/
theorem c4_counterexample :
    (c4Path.filter (fun seg => seg.name = "x")).length > MAX_FIELD_REPETITIONS ∧
    ¬ c4Path.length > MAX_PATH_LENGTH ∧
    c4Out.sel.length = 1 ∧ c4Acc.sel.length = 0 := by
  exact ⟨by decide, by decide, by decide, by decide⟩

/-! ### C2: root fetch grouping

The bucket keys of the root group are exactly the services of the
plannable root fields, folded through the group flavour's insertion step:
first-occurrence order for mutations (`MutationRootGroup`), sorted order
for queries (`QueryRootGroup`, a `BTreeMap`). -/

theorem assocHas_keys {α : Type} (g : List (String × α)) (s : String) :
    assocHas g s = strListHas (assocKeys g) s := by
  induction g with
  | nil => rfl
  | cons p t ih =>
    obtain ⟨k, v⟩ := p
    by_cases h : k = s
    · simp [assocHas, assocGet, assocKeys, strListHas, h]
    · simp only [assocHas, assocGet, assocKeys, strListHas, List.map_cons,
        List.any_cons] at *
      rw [if_neg h]
      simp [h, ih]

theorem insertBucketSorted_keys (s : String) (g : RootGroupBuckets) :
    assocKeys (insertBucketSorted s g) = insertKeySorted s (assocKeys g) := by
  induction g with
  | nil => rfl
  | cons p t ih =>
    obtain ⟨k, v⟩ := p
    simp only [insertBucketSorted, insertKeySorted, assocKeys, List.map_cons]
    by_cases h : strLe s k = true
    · rw [if_pos h, if_pos h]
      rfl
    · rw [Bool.not_eq_true] at h
      rw [h]
      simp only [Bool.false_eq_true, if_false, List.map_cons]
      exact congrArg (fun l => k :: l) ih

theorem ensureBucket_keys (b : Bool) (g : RootGroupBuckets) (s : String) :
    assocKeys (ensureBucket b g s) = bucketKeyInsert b (assocKeys g) s := by
  simp only [ensureBucket, bucketKeyInsert, assocHas_keys]
  by_cases h : strListHas (assocKeys g) s = true
  · rw [h]
    simp
  · rw [Bool.not_eq_true] at h
    rw [h]
    simp only [Bool.false_eq_true, if_false]
    cases b with
    | true => simp [assocKeys]
    | false => simp [insertBucketSorted_keys]

theorem assocPut_keys_of_has {α : Type} {g : List (String × α)} {s : String}
    (h : assocHas g s = true) (v : α) :
    assocKeys (assocPut g s v) = assocKeys g := by
  induction g with
  | nil => simp [assocHas, assocGet] at h
  | cons p t ih =>
    obtain ⟨k, w⟩ := p
    by_cases hk : k = s
    · simp [assocPut, hk, assocKeys]
    · simp only [assocHas, assocGet] at h
      rw [if_neg hk] at h
      simp only [assocPut, assocKeys, List.map_cons]
      rw [if_neg hk, List.map_cons]
      exact congrArg (fun l => k :: l) (ih h)

theorem mem_insertKeySorted_self (s : String) (ks : List String) :
    s ∈ insertKeySorted s ks := by
  induction ks with
  | nil => simp [insertKeySorted]
  | cons k t ih =>
    simp only [insertKeySorted]
    by_cases h : strLe s k = true
    · simp [h]
    · rw [Bool.not_eq_true] at h
      rw [h]
      simp only [Bool.false_eq_true, if_false]
      exact List.mem_cons_of_mem k ih

theorem strListHas_bucketKeyInsert (b : Bool) (ks : List String) (s : String) :
    strListHas (bucketKeyInsert b ks s) s = true := by
  simp only [bucketKeyInsert]
  by_cases h : strListHas ks s = true
  · rw [h]; simp [h]
  · rw [Bool.not_eq_true] at h
    rw [h]
    simp only [Bool.false_eq_true, if_false]
    cases b with
    | true => rw [strListHas_iff]; simp
    | false =>
      simp only [Bool.false_eq_true, if_false]
      rw [strListHas_iff]
      exact mem_insertKeySorted_self s ks

theorem assocHas_ensureBucket (b : Bool) (g : RootGroupBuckets) (s : String) :
    assocHas (ensureBucket b g s) s = true := by
  rw [assocHas_keys, ensureBucket_keys]
  exact strListHas_bucketKeyInsert b (assocKeys g) s

theorem buildRootSelectionSetRec_keys (fuel : Nat) (ctx : PContext) (b : Bool) :
    ∀ (acc : RootAcc) (pt : MetaType) (items : List Selection),
      assocKeys (buildRootSelectionSetRec fuel ctx b acc pt items).group =
        (expandedRootServices fuel ctx pt items).foldl (bucketKeyInsert b)
          (assocKeys acc.group) := by
  induction fuel with
  | zero => intro acc pt items; rfl
  | succ n ih =>
    intro acc pt items
    cases items with
    | nil => rfl
    | cons item rest =>
      cases item with
      | field f =>
        simp only [buildRootSelectionSetRec, expandedRootServices]
        cases hfd : assocGet pt.fields f.name with
        | none => simp [hfd, ih]
        | some fieldDefinition =>
          by_cases hintro : isIntrospectionField f.name = true
          · simp [hfd, hintro, ih]
          · rw [Bool.not_eq_true] at hintro
            cases hsv : fieldDefinition.service with
            | none => simp [hfd, hintro, hsv, ih]
            | some service =>
              simp only [hfd, hintro, hsv, Bool.false_eq_true, if_false,
                List.singleton_append, List.foldl_cons]
              rw [ih]
              congr 1
              rw [assocPut_keys_of_has (assocHas_ensureBucket b acc.group service),
                ensureBucket_keys]
      | fragmentSpread nm =>
        simp only [buildRootSelectionSetRec, expandedRootServices]
        cases hfr : assocGet ctx.fragments nm with
        | none => simp [hfr, ih]
        | some fr => simp [hfr, ih, List.foldl_append]
      | inlineFragment tc sel =>
        simp only [buildRootSelectionSetRec, expandedRootServices]
        simp [ih, List.foldl_append]

/-- C2 (confirmed).  The bucket keys of the root group are the services of
the plannable root fields folded through the flavour's insertion step; for
mutations that step is exactly first-occurrence insertion order (the
`MutationRootGroup` vector), and the root node is the `Sequence` of one
`Fetch` per bucket, while for queries it is the `Parallel` of the (sorted,
`BTreeMap`-keyed) buckets — single-child groups being unwrapped.  On the
concrete two-service schema, `mutation { doB doA }` plans as a `Sequence`
fetching `bbb` then `aaa` (declaration order), and `query { qb qa }` as a
`Parallel` fetching `aaa` then `bbb` (name order). -/
theorem c2_root_grouping :
    (∀ (fuel : Nat) (ctx : PContext) (b : Bool) (acc : RootAcc) (pt : MetaType)
        (items : List Selection),
        assocKeys (buildRootSelectionSetRec fuel ctx b acc pt items).group =
          (expandedRootServices fuel ctx pt items).foldl (bucketKeyInsert b)
            (assocKeys acc.group)) ∧
    (∀ (ks : List String) (s : String), bucketKeyInsert true ks s = insertNewKey ks s) ∧
    (∀ buckets : RootGroupBuckets,
        rootFetchGroupNode OpType.mutation buckets =
          (PlanNode.sequence (buckets.map (fun p => PlanNode.fetch p.1
            { entityType := none, operationType := OpType.mutation,
              selectionSet := p.2 }))).flattenOne) ∧
    (∀ buckets : RootGroupBuckets,
        rootFetchGroupNode OpType.query buckets =
          (PlanNode.parallel (buckets.map (fun p => PlanNode.fetch p.1
            { entityType := none, operationType := OpType.query,
              selectionSet := p.2 }))).flattenOne) ∧
    expandedRootServices 30 c2Ctx c2MutationRootType c2MutationOp.selectionSet =
      ["bbb", "aaa"] ∧
    (planOperation 30 c2Ctx c2MutationOp).map nodeKind = some "sequence" ∧
    (planOperation 30 c2Ctx c2QueryOp).map nodeKind = some "parallel" ∧
    (planOperation 30 c2Ctx c2MutationOp).map (collectFetchServices 10) =
      some ["bbb", "aaa"] ∧
    (planOperation 30 c2Ctx c2QueryOp).map (collectFetchServices 10) =
      some ["aaa", "bbb"] := by
  refine ⟨buildRootSelectionSetRec_keys, ?_, ?_, ?_, by decide, by decide, by decide,
    by decide, by decide⟩
  · intro ks s
    simp [bucketKeyInsert, insertNewKey]
  · intro buckets
    rfl
  · intro buckets
    rfl

/-! ### C1: the `@provides` coverage law -/

/-- C1 (code bug).  In the three-subgraph `@provides` scenario the caller's
sub-selection `{ username }` under `Review.author` is covered by the
field's `@provides` set (`allSelectionsSatisfied` holds, the §4.E.5
coverage rule), yet the emitted plan still contains a `Flatten` to the
`users` service for exactly that field.  The cause is visible in the third
conjunct: the gate `selection_set_satisfied_by_provides` first looks up the
*providing field's own name* (`author`) as a top-level key of the
`@provides` set (`provides_handler.rs` line 100 tests
`P.contains_key(field.name)`), which fails for `@provides(fields:
"username")`, so the handler is bypassed and the sub-selection is resolved
through the entity round trip. -/
theorem c1_provides_coverage_bug :
    allSelectionsSatisfied 10 [] c1Sigma c1AuthorProvides = true ∧
    selectionSetSatisfiedByProvides 10 [] "author" c1Sigma c1AuthorProvides = false ∧
    (c1Plan.map (collectFlattens 10)) = some [("users", ["username"])] ∧
    (c1Plan.map (collectFetchServices 10)) = some ["reviews"] := by
  exact ⟨by decide, by decide, by decide, by decide⟩
